import Mathlib

/-!
# ContactManagerApp: the contact store of `src/utils/ContactContext.js`

A shallow embedding of the `ContactProvider` data layer: the React state
(`contacts`, `loading`), the AsyncStorage slot `'contacts'`, and the operations
`loadContacts` (initialize / refresh), `saveContacts`, `addContact`,
`updateContact`, `deleteContact` and `toggleFavorite`.

Modelling conventions.

* JavaScript values are trees (`JsVal`): primitives, arrays and plain objects.
  An object is its list of own properties in creation order; the list of a
  JavaScript object has pairwise distinct keys, which the theorems that need
  it assume as `(keys fs).Nodup`.  Object identity is not
  modelled, which is why the id argument of `updateContact`, `deleteContact`
  and `toggleFavorite` is a primitive (`JsPrim`): `===` between a primitive and
  anything is decided by value.
* Numbers are `NaN`, the two infinities and the finite doubles, given by
  mantissa and binary exponent; a decimal is read as the double nearest to it
  and a double is written as the shortest decimal that reads back as it.  The
  two zeros are one value.
* Strings are sequences of Unicode characters (`String`); a string with a
  surrogate on its own is not represented.
* An `async` function that rejects is a function returning `Except.error`.
* Calls are issued one at a time, each one after the previous one completed
  and the component re-rendered, so that every call reads the current
  `contacts` state.
* The platform (JSON, `Date`, the seed module `../data/contactsData`) is the
  parameter `Env`; the storage provider's behaviour at each call is the
  boolean `getOk` / `setOk` passed to the operation.
-/

namespace ContactManager

/-! ## Values -/

/-- JavaScript numbers: `NaN`, the two infinities, and the finite doubles
`± mant * 2 ^ exp` in the form IEEE 754 stores them: `2 ^ 52 ≤ mant < 2 ^ 53`
with `-1074 ≤ exp ≤ 971`, or `mant < 2 ^ 52` with `exp = -1074`.  Zero is
`fin false 0 0`; the two zeros, which `===`, `!` and `JSON.stringify` do not
tell apart, are one value. -/
inductive JsNum where
  | nan
  | inf (neg : Bool)
  | fin (neg : Bool) (mant : Nat) (exp : Int)
  deriving DecidableEq, Repr

/-- Number of binary digits of `n`, halving at most `fuel` times. -/
def bitLengthAux : Nat → Nat → Nat
  | 0, _ => 0
  | fuel + 1, n => if n = 0 then 0 else bitLengthAux fuel (n / 2) + 1

/-- Number of binary digits of `n` (`0` for `0`). -/
def bitLength (n : Nat) : Nat := bitLengthAux n n

/-- The integer nearest to `n / d`, ties to the even one. -/
def roundHalfEven (n d : Nat) : Nat :=
  if 2 * (n % d) < d then n / d
  else if d < 2 * (n % d) then n / d + 1
  else if n / d % 2 = 0 then n / d
  else n / d + 1

/-- The double nearest to `± a / b` (`0 < b`), ties to the even mantissa:
`top` is the exponent of the leading bit of `a / b`, `e` the exponent of the
last bit kept, at least that of the subnormals; a mantissa rounded up to
`2 ^ 53` is renormalized, and a result past the largest double is infinite. -/
def roundRatio (neg : Bool) (a b : Nat) : JsNum :=
  if a = 0 then .fin false 0 0
  else
    let d : Int := (bitLength a : Int) - (bitLength b : Int)
    let top : Int := if b * 2 ^ d.toNat ≤ a * 2 ^ (-d).toNat then d else d - 1
    let e : Int := max (top - 52) (-1074)
    let q := roundHalfEven (a * 2 ^ (-e).toNat) (b * 2 ^ e.toNat)
    let q1 := if q = 2 ^ 53 then 2 ^ 52 else q
    let e1 := if q = 2 ^ 53 then e + 1 else e
    if 971 < e1 then .inf neg
    else if q1 = 0 then .fin false 0 0
    else .fin neg q1 e1

/-- The Number value of the decimal `± s * 10 ^ t`. -/
def roundDecimal (neg : Bool) (s : Nat) (t : Int) : JsNum :=
  roundRatio neg (s * 10 ^ t.toNat) (10 ^ (-t).toNat)

/-- JavaScript primitive values. -/
inductive JsPrim where
  | undefined
  | null
  | bool (b : Bool)
  | num (x : JsNum)
  | str (s : String)
  deriving DecidableEq, Repr

/-- JavaScript values: primitives, arrays, and plain objects given by their own
properties in creation order. -/
inductive JsVal where
  | prim (p : JsPrim)
  | arr (xs : List JsVal)
  | obj (fs : List (String × JsVal))

mutual
/-- Decidable equality of values. -/
def JsVal.decEq : (a b : JsVal) → Decidable (a = b)
  | .prim p, .prim q =>
    if h : p = q then isTrue (by rw [h]) else isFalse (fun e => h (JsVal.prim.inj e))
  | .arr xs, .arr ys =>
    match JsVal.decEqList xs ys with
    | isTrue h => isTrue (by rw [h])
    | isFalse h => isFalse (fun e => h (JsVal.arr.inj e))
  | .obj fs, .obj gs =>
    match JsVal.decEqProps fs gs with
    | isTrue h => isTrue (by rw [h])
    | isFalse h => isFalse (fun e => h (JsVal.obj.inj e))
  | .prim _, .arr _ => isFalse (fun e => JsVal.noConfusion e)
  | .prim _, .obj _ => isFalse (fun e => JsVal.noConfusion e)
  | .arr _, .prim _ => isFalse (fun e => JsVal.noConfusion e)
  | .arr _, .obj _ => isFalse (fun e => JsVal.noConfusion e)
  | .obj _, .prim _ => isFalse (fun e => JsVal.noConfusion e)
  | .obj _, .arr _ => isFalse (fun e => JsVal.noConfusion e)
/-- Decidable equality of lists of values. -/
def JsVal.decEqList : (xs ys : List JsVal) → Decidable (xs = ys)
  | [], [] => isTrue rfl
  | [], _ :: _ => isFalse (fun e => List.noConfusion e)
  | _ :: _, [] => isFalse (fun e => List.noConfusion e)
  | x :: xs, y :: ys =>
    match JsVal.decEq x y, JsVal.decEqList xs ys with
    | isTrue h, isTrue t => isTrue (by rw [h, t])
    | isFalse h, _ => isFalse (fun e => h (List.cons.inj e).1)
    | _, isFalse t => isFalse (fun e => t (List.cons.inj e).2)
/-- Decidable equality of property lists. -/
def JsVal.decEqProps : (fs gs : List (String × JsVal)) → Decidable (fs = gs)
  | [], [] => isTrue rfl
  | [], _ :: _ => isFalse (fun e => List.noConfusion e)
  | _ :: _, [] => isFalse (fun e => List.noConfusion e)
  | (k, x) :: fs, (l, y) :: gs =>
    if hk : k = l then
      match JsVal.decEq x y, JsVal.decEqProps fs gs with
      | isTrue h, isTrue t => isTrue (by rw [hk, h, t])
      | isFalse h, _ => isFalse (fun e => h (Prod.mk.inj (List.cons.inj e).1).2)
      | _, isFalse t => isFalse (fun e => t (List.cons.inj e).2)
    else isFalse (fun e => hk (Prod.mk.inj (List.cons.inj e).1).1)
end

instance : DecidableEq JsVal := JsVal.decEq

/-- Decidable equality of results. -/
instance instDecidableEqExcept {ε α : Type} [DecidableEq ε] [DecidableEq α] : DecidableEq (Except ε α)
  | .ok a, .ok b => if h : a = b then isTrue (by rw [h]) else isFalse (fun e => h (Except.ok.inj e))
  | .error a, .error b => if h : a = b then isTrue (by rw [h]) else isFalse (fun e => h (Except.error.inj e))
  | .ok _, .error _ => isFalse (fun e => Except.noConfusion e)
  | .error _, .ok _ => isFalse (fun e => Except.noConfusion e)

/-- Own properties of an object, in creation order. -/
abbrev Props := List (String × JsVal)

/-- Exceptions the operations can meet: the TypeError and SyntaxError of the
language, the rejection of a storage call, and `unsupported` for what the
value model cannot express (a string with a surrogate on its own). -/
inductive JsError where
  | typeError
  | syntaxError
  | storageError
  | unsupported
  deriving DecidableEq, Repr

namespace JsVal

/-- The value `undefined`. -/
def undef : JsVal := prim JsPrim.undefined

/-- The value `null`. -/
def nul : JsVal := prim JsPrim.null

/-- A boolean value. -/
def ofBool (b : Bool) : JsVal := prim (JsPrim.bool b)

/-- A string value. -/
def ofString (s : String) : JsVal := prim (JsPrim.str s)

/-- The number value of an integer. -/
def ofInt (n : Int) : JsVal := prim (JsPrim.num (roundRatio (decide (n < 0)) n.natAbs 1))

/-- The number value of the decimal `± s * 10 ^ t`. -/
def ofDecimal (neg : Bool) (s : Nat) (t : Int) : JsVal :=
  prim (JsPrim.num (roundDecimal neg s t))

end JsVal

open JsVal

/-! ## Language primitives used by the source -/

/-- ToBoolean on numbers: `NaN` and `0` are falsy. -/
def JsNum.truthy : JsNum → Bool
  | .nan => false
  | .inf _ => true
  | .fin _ m _ => m ≠ 0

/-- ToBoolean on primitives. -/
def JsPrim.truthy : JsPrim → Bool
  | .undefined => false
  | .null => false
  | .bool b => b
  | .num x => x.truthy
  | .str s => s ≠ ""

/-- ToBoolean: every array and object is truthy. -/
def truthy : JsVal → Bool
  | .prim p => p.truthy
  | .arr _ => true
  | .obj _ => true

/-- The operator `!`. -/
def jsNot (v : JsVal) : JsVal := ofBool (!truthy v)

/-- The operator `===` on numbers: `NaN` equals nothing. -/
def JsNum.strictEq : JsNum → JsNum → Bool
  | .nan, _ => false
  | _, .nan => false
  | x, y => x = y

/-- The operator `===` on primitives. -/
def JsPrim.strictEq : JsPrim → JsPrim → Bool
  | .undefined, .undefined => true
  | .null, .null => true
  | .bool a, .bool b => a = b
  | .num x, .num y => x.strictEq y
  | .str a, .str b => a = b
  | _, _ => false

/-- The operator `===` between a value and a primitive: an array or object is
never equal to a primitive. -/
def strictEq : JsVal → JsPrim → Bool
  | .prim p, q => p.strictEq q
  | .arr _, _ => false
  | .obj _, _ => false

/-- Own property lookup. -/
def lookup (k : String) : Props → Option JsVal
  | [] => none
  | (k', v) :: fs => if k' = k then some v else lookup k fs

/-- CreateDataProperty: overwrite the property in place when the key exists,
otherwise append it. -/
def setProp (k : String) (v : JsVal) : Props → Props
  | [] => [(k, v)]
  | (k', v') :: fs => if k' = k then (k, v) :: fs else (k', v') :: setProp k v fs

/-- Copy the properties `source` onto `target`, one CreateDataProperty each. -/
def assign (target : Props) : Props → Props
  | [] => target
  | (k, v) :: source => assign (setProp k v target) source

/-- Decimal digit character. -/
def digitChar (d : Nat) : Char :=
  match d with
  | 0 => '0' | 1 => '1' | 2 => '2' | 3 => '3' | 4 => '4'
  | 5 => '5' | 6 => '6' | 7 => '7' | 8 => '8' | _ => '9'

/-- Decimal digits of `n`, most significant first, pushed in front of `acc`. -/
def natDigitsAux : Nat → Nat → List Char → List Char
  | 0, _, acc => acc
  | fuel + 1, n, acc =>
    if n < 10 then digitChar n :: acc
    else natDigitsAux fuel (n / 10) (digitChar (n % 10) :: acc)

/-- Decimal digits of a natural number. -/
def natDigits (n : Nat) : List Char := natDigitsAux (n + 1) n []

/-- Number.prototype.toString on a non-negative integer below `10 ^ 21`, the
range of `Date.now()` and of array indices. -/
def numberToString (n : Nat) : String := String.mk (natDigits n)

/-- Index-keyed properties `"i"`, `"i+1"`, ... of a list of elements. -/
def indexed : Nat → List JsVal → Props
  | _, [] => []
  | i, x :: xs => (numberToString i, x) :: indexed (i + 1) xs

/-- Own enumerable properties copied by an object spread `{...v}`: those of an
object, the index properties of an array or of a string (one character each,
for strings of the Basic Multilingual Plane), none for any other primitive. -/
def ownProps : JsVal → Props
  | .obj fs => fs
  | .arr xs => indexed 0 xs
  | .prim (.str s) => indexed 0 (s.data.map fun c => ofString (String.mk [c]))
  | .prim _ => []

/-- Object spread `{...target, ...v}` onto already created properties. -/
def spread (target : Props) (v : JsVal) : Props := assign target (ownProps v)

/-- Array spread `[...v]`: arrays and strings are iterable, nothing else in
this value model is. -/
def iterate : JsVal → Except JsError (List JsVal)
  | .arr xs => .ok xs
  | .prim (.str s) => .ok (s.data.map fun c => ofString (String.mk [c]))
  | _ => .error .typeError

/-- Property read `v.k` for the two names the source reads, `id` and
`favorite`: a TypeError on `null` and `undefined`, the own property of an
object, and `undefined` on everything else (no array, string, number or
boolean carries either name). -/
def getField (v : JsVal) (k : String) : Except JsError JsVal :=
  match v with
  | .prim .undefined => .error .typeError
  | .prim .null => .error .typeError
  | .obj fs => .ok ((lookup k fs).getD undef)
  | _ => .ok undef

/-- Sequential map with a callback that may throw. -/
def mapE (f : JsVal → Except JsError JsVal) : List JsVal → Except JsError (List JsVal)
  | [] => .ok []
  | x :: xs =>
    match f x with
    | .error e => .error e
    | .ok y =>
      match mapE f xs with
      | .error e => .error e
      | .ok ys => .ok (y :: ys)

/-- Sequential filter with a predicate that may throw. -/
def filterE (p : JsVal → Except JsError Bool) : List JsVal → Except JsError (List JsVal)
  | [] => .ok []
  | x :: xs =>
    match p x with
    | .error e => .error e
    | .ok b =>
      match filterE p xs with
      | .error e => .error e
      | .ok ys => .ok (if b then x :: ys else ys)

/-- Array.prototype.map as called by the source, `contacts.map(f)`: a TypeError
unless `contacts` is an array. -/
def arrayMap (f : JsVal → Except JsError JsVal) : JsVal → Except JsError (List JsVal)
  | .arr xs => mapE f xs
  | _ => .error .typeError

/-- Array.prototype.filter as called by the source, `contacts.filter(p)`. -/
def arrayFilter (p : JsVal → Except JsError Bool) : JsVal → Except JsError (List JsVal)
  | .arr xs => filterE p xs
  | _ => .error .typeError

/-! ## Platform and state -/

/-- The platform the provider runs on: `JSON.parse`, `JSON.stringify` (applied
to an array), `Date.prototype.toISOString` of an epoch-millisecond reading, and
the seed list `sampleContacts` imported from `../data/contactsData`. -/
structure Env where
  parse : String → Except JsError JsVal
  stringify : List JsVal → String
  toISOString : Nat → String
  sampleContacts : List JsVal

/-- The provider's state: the React state `contacts` and `loading`, and the
content of the AsyncStorage key `'contacts'` (`none` when the key is absent). -/
structure Store where
  contacts : JsVal
  loading : Bool
  slot : Option String
  deriving DecidableEq

/-- State at mount: `useState([])`, `useState(true)`, over a given slot. -/
def Store.initial (slot : Option String) : Store :=
  { contacts := arr [], loading := true, slot := slot }

/-- The call `AsyncStorage.getItem('contacts')`: the slot content, or a rejection. -/
def getItem (getOk : Bool) (s : Store) : Except JsError (Option String) :=
  if getOk then .ok s.slot else .error .storageError

/-- The call `AsyncStorage.setItem('contacts', value)`: the slot is overwritten, or the
call rejects and the slot keeps its content. -/
def setItem (setOk : Bool) (value : String) (s : Store) : Except JsError Store :=
  if setOk then .ok { s with slot := some value } else .error .storageError

/-- Truthiness of what `getItem` resolved to: `null` and `""` are falsy. -/
def storedTruthy : Option String → Bool
  | none => false
  | some s => s ≠ ""

/-! ## The operations of `ContactProvider` -/

/-- The `try` block of `loadContacts`: the state it reached and the exception,
if any, that ended it. -/
def loadTry (E : Env) (getOk setOk : Bool) (s : Store) : Store × Option JsError :=
  match getItem getOk s with
  | .error e => (s, some e)
  | .ok stored =>
    if storedTruthy stored then
      match E.parse (stored.getD "") with
      | .ok v => ({ s with contacts := v }, none)
      | .error e => (s, some e)
    else
      let s1 := { s with contacts := arr E.sampleContacts }
      match setItem setOk (E.stringify E.sampleContacts) s1 with
      | .ok s2 => (s2, none)
      | .error e => (s1, some e)

/-- The function `loadContacts`, also exposed as `refreshContacts`: the `try`
block, the `catch` falling back to the seed list, the `finally` clearing
`loading`. -/
def loadContacts (E : Env) (getOk setOk : Bool) (s : Store) : Except JsError Store :=
  let r := loadTry E getOk setOk s
  let s1 := match r.2 with
    | none => r.1
    | some _ => { r.1 with contacts := arr E.sampleContacts }
  .ok { s1 with loading := false }

/-- The function `saveContacts`: a failed write is logged and swallowed. -/
def saveContacts (E : Env) (setOk : Bool) (newContacts : List JsVal) (s : Store) :
    Except JsError Store :=
  match setItem setOk (E.stringify newContacts) s with
  | .ok s1 => .ok s1
  | .error _ => .ok s

/-- The object literal of `addContact`:
`{...contactData, id: Date.now().toString(), createdAt: new Date().toISOString(), favorite: false}`,
with `now` the reading of `Date.now()` and `now2` that of `new Date()`. -/
def newContact (E : Env) (now now2 : Nat) (contactData : JsVal) : JsVal :=
  obj (setProp "favorite" (ofBool false)
    (setProp "createdAt" (ofString (E.toISOString now2))
      (setProp "id" (ofString (numberToString now))
        (spread [] contactData))))

/-- The function `addContact`; it resolves to the new contact. -/
def addContact (E : Env) (now now2 : Nat) (setOk : Bool) (contactData : JsVal) (s : Store) :
    Except JsError (Store × JsVal) :=
  let nc := newContact E now now2 contactData
  match iterate s.contacts with
  | .error e => .error e
  | .ok items =>
    let updatedContacts := items ++ [nc]
    match saveContacts E setOk updatedContacts { s with contacts := arr updatedContacts } with
    | .error e => .error e
    | .ok s1 => .ok (s1, nc)

/-- The callback of `updateContact`:
`contact.id === contactId ? { ...contact, ...contactData } : contact`. -/
def updateEntry (contactId : JsPrim) (contactData : JsVal) (contact : JsVal) :
    Except JsError JsVal :=
  match getField contact "id" with
  | .error e => .error e
  | .ok id =>
    if strictEq id contactId then .ok (obj (spread (spread [] contact) contactData))
    else .ok contact

/-- The function `updateContact`. -/
def updateContact (E : Env) (setOk : Bool) (contactId : JsPrim) (contactData : JsVal)
    (s : Store) : Except JsError Store :=
  match arrayMap (updateEntry contactId contactData) s.contacts with
  | .error e => .error e
  | .ok updatedContacts =>
    saveContacts E setOk updatedContacts { s with contacts := arr updatedContacts }

/-- The predicate of `deleteContact`: `contact.id !== contactId`. -/
def keepEntry (contactId : JsPrim) (contact : JsVal) : Except JsError Bool :=
  match getField contact "id" with
  | .error e => .error e
  | .ok id => .ok (!strictEq id contactId)

/-- The function `deleteContact`. -/
def deleteContact (E : Env) (setOk : Bool) (contactId : JsPrim) (s : Store) :
    Except JsError Store :=
  match arrayFilter (keepEntry contactId) s.contacts with
  | .error e => .error e
  | .ok updatedContacts =>
    saveContacts E setOk updatedContacts { s with contacts := arr updatedContacts }

/-- The callback of `toggleFavorite`:
`contact.id === contactId ? { ...contact, favorite: !contact.favorite } : contact`. -/
def toggleEntry (contactId : JsPrim) (contact : JsVal) : Except JsError JsVal :=
  match getField contact "id" with
  | .error e => .error e
  | .ok id =>
    if strictEq id contactId then
      match getField contact "favorite" with
      | .error e => .error e
      | .ok fav => .ok (obj (setProp "favorite" (jsNot fav) (spread [] contact)))
    else .ok contact

/-- The function `toggleFavorite`. -/
def toggleFavorite (E : Env) (setOk : Bool) (contactId : JsPrim) (s : Store) :
    Except JsError Store :=
  match arrayMap (toggleEntry contactId) s.contacts with
  | .error e => .error e
  | .ok updatedContacts =>
    saveContacts E setOk updatedContacts { s with contacts := arr updatedContacts }

/-- The four mutating operations the provider exposes, with their arguments
and, for `add`, the readings of `Date.now()` and `new Date()`. -/
inductive Mutation where
  | add (now now2 : Nat) (contactData : JsVal)
  | update (contactId : JsPrim) (contactData : JsVal)
  | remove (contactId : JsPrim)
  | toggle (contactId : JsPrim)

/-- Run a mutating operation and keep the state it leaves. -/
def Mutation.apply (E : Env) (setOk : Bool) : Mutation → Store → Except JsError Store
  | .add now now2 contactData, s =>
    match addContact E now now2 setOk contactData s with
    | .error e => .error e
    | .ok (s1, _) => .ok s1
  | .update contactId contactData, s => updateContact E setOk contactId contactData s
  | .remove contactId, s => deleteContact E setOk contactId s
  | .toggle contactId, s => toggleFavorite E setOk contactId s

/-! ## A reference platform: JSON and `Date` -/

/-- Number of zeros after the decimal point of `a / b < 1`: the least `j`
with `b ≤ a * 10 ^ j`, looked for up to `fuel`. -/
def leadingZeros : Nat → Nat → Nat → Nat
  | 0, _, _ => 0
  | fuel + 1, a, b => if b ≤ a then 0 else leadingZeros fuel (a * 10) b + 1

/-- The position `n` of the decimal point of `a / b > 0`:
`10 ^ (n - 1) ≤ a / b < 10 ^ n`. -/
def decimalPoint (a b : Nat) : Int :=
  if b ≤ a then ((natDigits (a / b)).length : Int) else 1 - (leadingZeros 400 a b : Int)

/-- A `k`-digit integer `s` such that `s * 10 ^ (n - k)` has the Number value
`mant * 2 ^ exp = a / b`, the one nearest to `a / b * 10 ^ (k - n)` when there
are two; `none` when there is none. -/
def digitsCandidate (mant : Nat) (exp : Int) (a b : Nat) (n : Int) (k : Nat) : Option Nat :=
  let num := a * 10 ^ ((k : Int) - n).toNat
  let den := b * 10 ^ (n - (k : Int)).toNat
  let lo := num / den
  let okLo := decide (lo ≠ 0) && decide (roundDecimal false lo (n - k) = .fin false mant exp)
  let okHi := decide (roundDecimal false (lo + 1) (n - k) = .fin false mant exp)
  if okLo && okHi then some (roundHalfEven num den)
  else if okLo then some lo
  else if okHi then some (lo + 1)
  else none

/-- The digits of Number::toString: the candidate of the least number of
digits `k`, from `k` on; seventeen digits always have one. -/
def shortestDigits (mant : Nat) (exp : Int) (a b : Nat) (n : Int) : Nat → Nat → Nat × Nat
  | 0, k => (roundHalfEven (a * 10 ^ ((k : Int) - n).toNat) (b * 10 ^ (n - (k : Int)).toNat), k)
  | fuel + 1, k =>
    match digitsCandidate mant exp a b n k with
    | some s => (s, k)
    | none => shortestDigits mant exp a b n fuel (k + 1)

/-- Drop the zeros in front of a reversed digit string, keeping one digit. -/
def stripZerosRev : List Char → List Char
  | [] => []
  | c :: cs => if c = '0' ∧ cs ≠ [] then stripZerosRev cs else c :: cs

/-- Drop the zeros at the end of a digit string, keeping one digit. -/
def stripTrailingZeros (ds : List Char) : List Char := (stripZerosRev ds.reverse).reverse

/-- The layout of Number::toString for the digits `ds` and the position `n` of
the decimal point: plain digits up to `10 ^ 21`, a decimal fraction down to
`10 ^ -7`, exponent notation beyond. -/
def formatNumber (ds : List Char) (n : Int) : List Char :=
  if (ds.length : Int) ≤ n ∧ n ≤ 21 then ds ++ List.replicate (n.toNat - ds.length) '0'
  else if 0 < n ∧ n ≤ 21 then ds.take n.toNat ++ '.' :: ds.drop n.toNat
  else if -6 < n ∧ n ≤ 0 then '0' :: '.' :: (List.replicate (-n).toNat '0' ++ ds)
  else
    let expo := (if 0 < n - 1 then '+' else '-') :: natDigits (n - 1).natAbs
    match ds with
    | [] => []
    | [d] => d :: 'e' :: expo
    | d :: rest => d :: '.' :: (rest ++ 'e' :: expo)

/-- Number::toString: the shortest decimal that reads back as the number. -/
def numberText : JsNum → List Char
  | .nan => "NaN".data
  | .inf neg => if neg then "-Infinity".data else "Infinity".data
  | .fin neg m e =>
    if m = 0 then ['0']
    else
      let a := m * 2 ^ e.toNat
      let b := 2 ^ (-e).toNat
      let n := decimalPoint a b
      let sk := shortestDigits m e a b n 16 1
      let ds := natDigits sk.1
      let body := formatNumber (stripTrailingZeros ds) (n + ((ds.length : Int) - sk.2))
      if neg then '-' :: body else body

/-- Decimal digit test. -/
def isDigit (c : Char) : Bool := 48 ≤ c.toNat ∧ c.toNat ≤ 57

/-- Value of a decimal digit character. -/
def digitVal (c : Char) : Nat := c.toNat - 48

/-- Read the longest run of decimal digits, accumulating its value. -/
def parseDigits (acc : Nat) : List Char → Nat × List Char
  | [] => (acc, [])
  | c :: cs => if isDigit c then parseDigits (acc * 10 + digitVal c) cs else (acc, c :: cs)

/-- The array index a property key denotes: the key is the decimal rendering
of a number up to `2 ^ 32 - 2`. -/
def arrayIndex (k : String) : Option Nat :=
  let n := (parseDigits 0 k.data).1
  if numberToString n = k ∧ n ≤ 4294967294 then some n else none

/-- Insert an index-keyed entry in ascending order of index. -/
def insertIndexed {α : Type} (n : Nat) (x : α) : List (Nat × α) → List (Nat × α)
  | [] => [(n, x)]
  | (m, y) :: rest => if n < m then (n, x) :: (m, y) :: rest else (m, y) :: insertIndexed n x rest

/-- The entries whose key is an array index, in ascending order of index. -/
def indexEntries {α : Type} : List (String × α) → List (Nat × (String × α))
  | [] => []
  | (k, x) :: rest =>
    match arrayIndex k with
    | some n => insertIndexed n (k, x) (indexEntries rest)
    | none => indexEntries rest

/-- The order in which the own properties of an object are enumerated: array
indices in ascending order, then the other keys in creation order. -/
def enumOrder {α : Type} (fs : List (String × α)) : List (String × α) :=
  (indexEntries fs).map Prod.snd ++ fs.filter fun kv => (arrayIndex kv.1).isNone

/-- Lower-case hexadecimal digit character. -/
def hexChar (d : Nat) : Char :=
  match d with
  | 0 => '0' | 1 => '1' | 2 => '2' | 3 => '3' | 4 => '4' | 5 => '5' | 6 => '6' | 7 => '7'
  | 8 => '8' | 9 => '9' | 10 => 'a' | 11 => 'b' | 12 => 'c' | 13 => 'd' | 14 => 'e' | _ => 'f'

/-- QuoteJSONString on one character: the escapes of `"` and `\`, the short
and `\u00xx` escapes of control characters, any other character as itself. -/
def quoteChar (c : Char) : List Char :=
  if c = '"' then ['\\', '"']
  else if c = '\\' then ['\\', '\\']
  else if c = '\x08' then ['\\', 'b']
  else if c = '\x0c' then ['\\', 'f']
  else if c = '\n' then ['\\', 'n']
  else if c = '\r' then ['\\', 'r']
  else if c = '\t' then ['\\', 't']
  else if c.toNat < 32 then ['\\', 'u', '0', '0', hexChar (c.toNat / 16), hexChar (c.toNat % 16)]
  else [c]

/-- The characters of a string with every character quoted (no delimiters). -/
def quoteChars : List Char → List Char
  | [] => []
  | c :: cs => quoteChar c ++ quoteChars cs

/-- QuoteJSONString. -/
def quoteString (s : String) : List Char := '"' :: quoteChars s.data ++ ['"']

/-- Comma-separated concatenation. -/
def commaSep : List (List Char) → List Char
  | [] => []
  | [x] => x
  | x :: y :: rest => x ++ ',' :: commaSep (y :: rest)

/-- SerializeJSONProperty on a primitive; `none` stands for `undefined`. -/
def serPrim : JsPrim → Option (List Char)
  | .undefined => none
  | .null => some "null".data
  | .bool true => some "true".data
  | .bool false => some "false".data
  | .num (.fin neg m e) => some (numberText (.fin neg m e))
  | .num _ => some "null".data
  | .str s => some (quoteString s)

mutual
/-- SerializeJSONProperty: `none` stands for `undefined`. -/
def serValue : JsVal → Option (List Char)
  | .prim p => serPrim p
  | .arr xs => some ('[' :: commaSep (serElements xs) ++ [']'])
  | .obj fs => some ('{' :: commaSep ((enumOrder (serMembers fs)).map fun kt =>
      quoteString kt.1 ++ ':' :: kt.2) ++ ['}'])
/-- SerializeJSONArray: an element that serializes to `undefined` is written
`null`. -/
def serElements : List JsVal → List (List Char)
  | [] => []
  | x :: xs => (serValue x).getD "null".data :: serElements xs
/-- SerializeJSONObject: the text of each property value, a property whose
value serializes to `undefined` being left out. -/
def serMembers : List (String × JsVal) → List (String × List Char)
  | [] => []
  | (k, v) :: fs =>
    match serValue v with
    | none => serMembers fs
    | some t => (k, t) :: serMembers fs
end

/-- The function `JSON.stringify` applied to an array. -/
def jsonStringify (xs : List JsVal) : String :=
  String.mk ('[' :: commaSep (serElements xs) ++ [']'])

/-- Result of a parsing step: the value read and the remaining input. -/
abbrev PResult (α : Type) := Except JsError (α × List Char)

/-- JSON white space. -/
def isWs (c : Char) : Bool := c = ' ' ∨ c = '\t' ∨ c = '\n' ∨ c = '\r'

/-- Skip JSON white space. -/
def skipWs : List Char → List Char
  | [] => []
  | c :: cs => if isWs c then skipWs cs else c :: cs

/-- Read the integer part of a JSON number, `0` or a run of digits without a
leading zero. -/
def parseNat : List Char → PResult Nat
  | [] => .error .syntaxError
  | c :: cs =>
    if c = '0' then
      match cs with
      | [] => .ok (0, [])
      | d :: ds => if isDigit d then .error .syntaxError else .ok (0, d :: ds)
    else if isDigit c then .ok (parseDigits 0 (c :: cs))
    else .error .syntaxError

/-- Read the optional fraction of a JSON number after the integer part of
value `s`: the value of all digits read so far and the number of fraction
digits. -/
def parseFraction (s : Nat) : List Char → PResult (Nat × Nat)
  | [] => .ok ((s, 0), [])
  | c :: cs =>
    if c = '.' then
      match cs with
      | [] => .error .syntaxError
      | d :: ds =>
        if isDigit d then
          .ok (((parseDigits s (d :: ds)).1,
            (d :: ds).length - (parseDigits s (d :: ds)).2.length), (parseDigits s (d :: ds)).2)
        else .error .syntaxError
    else .ok ((s, 0), c :: cs)

/-- Read the digits of an exponent after its optional sign. -/
def parseExponentDigits (neg : Bool) : List Char → PResult Int
  | [] => .error .syntaxError
  | d :: ds =>
    if isDigit d then
      .ok (if neg then -((parseDigits 0 (d :: ds)).1 : Int) else ((parseDigits 0 (d :: ds)).1 : Int),
        (parseDigits 0 (d :: ds)).2)
    else .error .syntaxError

/-- Read the optional exponent of a JSON number. -/
def parseExponent : List Char → PResult Int
  | [] => .ok (0, [])
  | c :: cs =>
    if c = 'e' ∨ c = 'E' then
      match cs with
      | [] => .error .syntaxError
      | g :: gs =>
        if g = '-' then parseExponentDigits true gs
        else if g = '+' then parseExponentDigits false gs
        else parseExponentDigits false (g :: gs)
    else .ok (0, c :: cs)

/-- Read a JSON number: an optional minus sign, an integer part, an optional
fraction and an optional exponent; its value is the double nearest to the
decimal read. -/
def parseNumber (cs : List Char) : PResult JsVal :=
  let neg := cs.head? = some '-'
  match parseNat (if neg then cs.tail else cs) with
  | .error e => .error e
  | .ok (i, r1) =>
    match parseFraction i r1 with
    | .error e => .error e
    | .ok ((s, frac), r2) =>
      match parseExponent r2 with
      | .error e => .error e
      | .ok (x, r3) => .ok (ofDecimal neg s (x - (frac : Int)), r3)

/-- Value of a hexadecimal digit character. -/
def hexVal (c : Char) : Option Nat :=
  if isDigit c then some (c.toNat - 48)
  else if 97 ≤ c.toNat ∧ c.toNat ≤ 102 then some (c.toNat - 87)
  else if 65 ≤ c.toNat ∧ c.toNat ≤ 70 then some (c.toNat - 55)
  else none

/-- Value of four hexadecimal digits. -/
def hex4 (a b c d : Char) : Option Nat :=
  match hexVal a, hexVal b, hexVal c, hexVal d with
  | some x, some y, some z, some w => some (((x * 16 + y) * 16 + z) * 16 + w)
  | _, _, _, _ => none

/-- Put a character in front of the string read by the rest of the parse. -/
def consChar (c : Char) : PResult (List Char) → PResult (List Char)
  | .error e => .error e
  | .ok (s, rest) => .ok (c :: s, rest)

/-- Read the characters of a JSON string after its opening quote, up to and
including the closing quote.  A raw control character is a syntax error.  A
`\u` escape of a high surrogate followed by one of a low surrogate is the
character of the pair.  A surrogate escaped on its own denotes a string that
is not a sequence of Unicode characters, which `String` cannot hold: on that
text alone the answer is `unsupported`. -/
def parseChars : List Char → PResult (List Char)
  | [] => .error .syntaxError
  | c :: cs =>
    if c = '"' then .ok ([], cs)
    else if c = '\\' then
      match cs with
      | [] => .error .syntaxError
      | e :: cs1 =>
        if e = '"' then consChar '"' (parseChars cs1)
        else if e = '\\' then consChar '\\' (parseChars cs1)
        else if e = '/' then consChar '/' (parseChars cs1)
        else if e = 'b' then consChar '\x08' (parseChars cs1)
        else if e = 'f' then consChar '\x0c' (parseChars cs1)
        else if e = 'n' then consChar '\n' (parseChars cs1)
        else if e = 'r' then consChar '\r' (parseChars cs1)
        else if e = 't' then consChar '\t' (parseChars cs1)
        else if e = 'u' then
          match cs1 with
          | a :: b :: c1 :: d :: cs2 =>
            match hex4 a b c1 d with
            | none => .error .syntaxError
            | some n =>
              if 0xD800 ≤ n ∧ n ≤ 0xDBFF then
                match cs2 with
                | b1 :: u1 :: a2 :: b2 :: c2 :: d2 :: cs3 =>
                  if b1 = '\\' ∧ u1 = 'u' then
                    match hex4 a2 b2 c2 d2 with
                    | none => .error .syntaxError
                    | some lo =>
                      if 0xDC00 ≤ lo ∧ lo ≤ 0xDFFF then
                        consChar (Char.ofNat (0x10000 + (n - 0xD800) * 0x400 + (lo - 0xDC00)))
                          (parseChars cs3)
                      else .error .unsupported
                  else .error .unsupported
                | _ => .error .unsupported
              else if 0xDC00 ≤ n ∧ n ≤ 0xDFFF then .error .unsupported
              else consChar (Char.ofNat n) (parseChars cs2)
          | _ => .error .syntaxError
        else .error .syntaxError
    else if c.toNat < 32 then .error .syntaxError
    else consChar c (parseChars cs)

/-- Read a JSON string, opening quote included. -/
def parseString : List Char → PResult String
  | [] => .error .syntaxError
  | c :: cs =>
    if c = '"' then
      match parseChars cs with
      | .error e => .error e
      | .ok (s, rest) => .ok (String.mk s, rest)
    else .error .syntaxError

/-- Read one of the literals `null`, `true`, `false`. -/
def parseLiteral : List Char → PResult JsVal
  | 'n' :: 'u' :: 'l' :: 'l' :: rest => .ok (nul, rest)
  | 't' :: 'r' :: 'u' :: 'e' :: rest => .ok (ofBool true, rest)
  | 'f' :: 'a' :: 'l' :: 's' :: 'e' :: rest => .ok (ofBool false, rest)
  | _ => .error .syntaxError

mutual
/-- Read a JSON value; the first argument bounds the number of nested and
successive values still to be read, and `jsonParse` passes more than the text
has characters. -/
def parseValue : Nat → List Char → PResult JsVal
  | 0, _ => .error .unsupported
  | _, [] => .error .syntaxError
  | fuel + 1, c :: cs =>
    if c = '[' then
      match skipWs cs with
      | [] => .error .syntaxError
      | d :: ds =>
        if d = ']' then .ok (arr [], ds)
        else
          match parseElements fuel (d :: ds) with
          | .error e => .error e
          | .ok (xs, rest) => .ok (arr xs, rest)
    else if c = '{' then
      match skipWs cs with
      | [] => .error .syntaxError
      | d :: ds =>
        if d = '}' then .ok (obj [], ds)
        else
          match parseMembers fuel [] (d :: ds) with
          | .error e => .error e
          | .ok (fs, rest) => .ok (obj fs, rest)
    else if c = '"' then
      match parseString (c :: cs) with
      | .error e => .error e
      | .ok (s, rest) => .ok (ofString s, rest)
    else if c = '-' ∨ isDigit c then parseNumber (c :: cs)
    else parseLiteral (c :: cs)
/-- Read the elements of a non-empty array, up to and including `]`. -/
def parseElements : Nat → List Char → PResult (List JsVal)
  | 0, _ => .error .unsupported
  | fuel + 1, cs =>
    match parseValue fuel cs with
    | .error e => .error e
    | .ok (v, rest) =>
      match skipWs rest with
      | [] => .error .syntaxError
      | d :: ds =>
        if d = ']' then .ok ([v], ds)
        else if d = ',' then
          match parseElements fuel (skipWs ds) with
          | .error e => .error e
          | .ok (vs, rest1) => .ok (v :: vs, rest1)
        else .error .syntaxError
/-- Read the members of a non-empty object, up to and including `}`, adding
each one to the properties read so far (a repeated key overwrites). -/
def parseMembers : Nat → List (String × JsVal) → List Char → PResult (List (String × JsVal))
  | 0, _, _ => .error .unsupported
  | fuel + 1, acc, cs =>
    match parseString cs with
    | .error e => .error e
    | .ok (k, rest) =>
      match skipWs rest with
      | [] => .error .syntaxError
      | d :: ds =>
        if d = ':' then
          match parseValue fuel (skipWs ds) with
          | .error e => .error e
          | .ok (v, rest1) =>
            match skipWs rest1 with
            | [] => .error .syntaxError
            | d1 :: ds1 =>
              if d1 = '}' then .ok (setProp k v acc, ds1)
              else if d1 = ',' then parseMembers fuel (setProp k v acc) (skipWs ds1)
              else .error .syntaxError
        else .error .syntaxError
end

/-- The function `JSON.parse`: the whole text is one value between
optional white space. -/
def jsonParse (s : String) : Except JsError JsVal :=
  match parseValue (s.data.length + 1) (skipWs s.data) with
  | .error e => .error e
  | .ok (v, rest) =>
    match skipWs rest with
    | [] => .ok v
    | _ :: _ => .error .syntaxError

/-- Decimal digits of `n` padded with zeros on the left to width `w`. -/
def padDigits (w n : Nat) : List Char :=
  List.replicate (w - (natDigits n).length) '0' ++ natDigits n

/-- Date.prototype.toISOString of an instant given in milliseconds since the
epoch: `YYYY-MM-DDTHH:mm:ss.sssZ`, with the expanded year `+YYYYYY` after
year 9999. -/
def isoString (t : Nat) : String :=
  let ms := t % 86400000
  let z := t / 86400000 + 719468
  let era := z / 146097
  let doe := z % 146097
  let yoe := (doe - doe / 1460 + doe / 36524 - doe / 146096) / 365
  let doy := doe - (365 * yoe + yoe / 4 - yoe / 100)
  let mp := (5 * doy + 2) / 153
  let d := doy - (153 * mp + 2) / 5 + 1
  let m := if mp < 10 then mp + 3 else mp - 9
  let y := yoe + era * 400 + (if m ≤ 2 then 1 else 0)
  let year := if y ≤ 9999 then padDigits 4 y else '+' :: padDigits 6 y
  String.mk (year ++ '-' :: padDigits 2 m ++ '-' :: padDigits 2 d ++ 'T' ::
    padDigits 2 (ms / 3600000) ++ ':' :: padDigits 2 (ms / 60000 % 60) ++ ':' ::
    padDigits 2 (ms / 1000 % 60) ++ '.' :: padDigits 3 (ms % 1000) ++ ['Z'])

/-- A seed list standing for `sampleContacts` in worked examples. -/
def demoSeed : List JsVal :=
  [obj [("id", ofString "1"), ("name", ofString "Ada Lovelace"),
        ("phone", ofString "555-0100"), ("favorite", ofBool true)],
   obj [("id", ofString "2"), ("name", ofString "Alan Turing"),
        ("phone", ofString "555-0101"), ("favorite", ofBool false)]]

/-- The reference platform: JSON, ISO timestamps, and
a given seed list. -/
def refEnv (seed : List JsVal) : Env :=
  { parse := jsonParse
    stringify := jsonStringify
    toISOString := isoString
    sampleContacts := seed }

/-! ## Well-formed collections -/

/-- Keys of a property list. -/
def keys (fs : Props) : List String := fs.map Prod.fst

/-- The `id` a record carries (`undefined` when it has none). -/
def idOf (fs : Props) : JsVal := (lookup "id" fs).getD undef

/-- The `favorite` a record carries (`undefined` when it has none). -/
def favoriteOf (fs : Props) : JsVal := (lookup "favorite" fs).getD undef

/-- The array of the records `cs`. -/
def records (cs : List Props) : JsVal := arr (cs.map obj)

/-- The list of `id` values of a collection of records. -/
def ids (cs : List Props) : List JsVal := cs.map idOf

/-- The entry `updateContact` leaves in the place of the record `c`. -/
def updateProps (contactId : JsPrim) (contactData : JsVal) (c : Props) : Props :=
  if strictEq (idOf c) contactId then spread (spread [] (obj c)) contactData else c

/-- The entry `toggleFavorite` leaves in the place of the record `c`. -/
def toggleProps (contactId : JsPrim) (c : Props) : Props :=
  if strictEq (idOf c) contactId then
    setProp "favorite" (jsNot (favoriteOf c)) (spread [] (obj c))
  else c

/-- An array none of whose entries is `null` or `undefined`: the shape of
`contacts` on which `map` and `filter` with a callback reading `contact.id`
cannot throw. -/
def isCollection : JsVal → Bool
  | .arr xs => xs.all fun x => decide (x ≠ nul) && decide (x ≠ undef)
  | _ => false

/-! ## Properties of the object primitives -/

theorem lookup_setProp_same (k : String) (v : JsVal) (fs : Props) :
    lookup k (setProp k v fs) = some v := by
  induction fs with
  | nil => simp [setProp, lookup]
  | cons kv fs ih =>
    obtain ⟨k', v'⟩ := kv
    by_cases h : k' = k <;> simp [setProp, lookup, h, ih]

theorem lookup_setProp_ne (k k' : String) (v : JsVal) (fs : Props) (h : k' ≠ k) :
    lookup k' (setProp k v fs) = lookup k' fs := by
  induction fs with
  | nil => simp [setProp, lookup, Ne.symm h]
  | cons kv fs ih =>
    obtain ⟨k₀, v₀⟩ := kv
    by_cases h₀ : k₀ = k
    · subst h₀
      simp [setProp, lookup, Ne.symm h]
    · by_cases h₁ : k₀ = k'
      · subst h₁
        simp [setProp, lookup, h₀]
      · simp [setProp, lookup, h₀, h₁, ih]

theorem lookup_eq_none_of_not_mem (k : String) (fs : Props) (h : k ∉ keys fs) :
    lookup k fs = none := by
  induction fs with
  | nil => rfl
  | cons kv fs ih =>
    obtain ⟨k', v'⟩ := kv
    simp only [keys, List.map_cons, List.mem_cons, not_or] at h
    have h1 : ¬ k' = k := fun e => h.1 e.symm
    simp only [lookup, h1, if_false]
    exact ih h.2

theorem setProp_of_not_mem (k : String) (v : JsVal) (fs : Props) (h : k ∉ keys fs) :
    setProp k v fs = fs ++ [(k, v)] := by
  induction fs with
  | nil => rfl
  | cons kv fs ih =>
    obtain ⟨k', v'⟩ := kv
    simp only [keys, List.map_cons, List.mem_cons, not_or] at h
    have h1 : ¬ k' = k := fun e => h.1 e.symm
    simp only [setProp, h1, if_false, List.cons_append]
    rw [ih h.2]

theorem keys_setProp_of_mem (k : String) (v : JsVal) (fs : Props) (h : k ∈ keys fs) :
    keys (setProp k v fs) = keys fs := by
  induction fs with
  | nil => simp [keys] at h
  | cons kv fs ih =>
    obtain ⟨k', v'⟩ := kv
    by_cases h1 : k' = k
    · simp [setProp, keys, h1]
    · have h2 : k ∈ keys fs := by
        simp only [keys, List.map_cons, List.mem_cons] at h
        rcases h with h | h
        · exact absurd h.symm h1
        · exact h
      have := ih h2
      simp only [keys] at this
      simp [setProp, keys, h1, this]

theorem keys_setProp_nodup (k : String) (v : JsVal) (fs : Props) (h : (keys fs).Nodup) :
    (keys (setProp k v fs)).Nodup := by
  by_cases hk : k ∈ keys fs
  · rw [keys_setProp_of_mem k v fs hk]
    exact h
  · rw [setProp_of_not_mem k v fs hk]
    simp only [keys, List.map_append, List.map_cons, List.map_nil]
    rw [List.nodup_append]
    refine ⟨h, List.nodup_singleton k, ?_⟩
    intro a ha hb
    simp only [List.mem_singleton] at hb
    subst hb
    exact hk ha

theorem assign_eq_append (t src : Props) (h : (keys (t ++ src)).Nodup) :
    assign t src = t ++ src := by
  induction src generalizing t with
  | nil => simp [assign]
  | cons kv src ih =>
    obtain ⟨k, v⟩ := kv
    have hk : k ∉ keys t := by
      simp only [keys, List.map_append, List.map_cons] at h
      rw [List.nodup_append] at h
      intro hm
      exact h.2.2 hm (List.mem_cons_self _ _)
    simp only [assign]
    rw [setProp_of_not_mem k v t hk]
    have h2 : (keys ((t ++ [(k, v)]) ++ src)).Nodup := by
      simpa [List.append_assoc] using h
    rw [ih _ h2]
    simp [List.append_assoc]

theorem assign_nil (fs : Props) (h : (keys fs).Nodup) : assign [] fs = fs := by
  have := assign_eq_append [] fs (by simpa using h)
  simpa using this

theorem lookup_assign (k : String) (t src : Props) (h : (keys src).Nodup) :
    lookup k (assign t src) = (lookup k src).or (lookup k t) := by
  induction src generalizing t with
  | nil => simp [assign, lookup]
  | cons kv src ih =>
    obtain ⟨k', v'⟩ := kv
    simp only [keys, List.map_cons, List.nodup_cons] at h
    simp only [assign]
    rw [ih _ h.2]
    by_cases h1 : k' = k
    · subst h1
      have hn : lookup k' src = none := lookup_eq_none_of_not_mem k' src h.1
      simp [lookup, hn, lookup_setProp_same]
    · have h2 : k ≠ k' := fun e => h1 e.symm
      simp [lookup, h1, lookup_setProp_ne k' k v' t h2]

theorem keys_assign_nodup (t src : Props) (h : (keys t).Nodup) :
    (keys (assign t src)).Nodup := by
  induction src generalizing t with
  | nil => simpa [assign] using h
  | cons kv src ih =>
    obtain ⟨k, v⟩ := kv
    simp only [assign]
    exact ih _ (keys_setProp_nodup k v t h)

/-! ## Decimal digits -/

theorem digitVal_digitChar (d : Nat) (h : d < 10) : digitVal (digitChar d) = d := by
  interval_cases d <;> rfl

theorem natDigitsAux_eq (n : Nat) : ∀ fuel acc, n < fuel →
    natDigitsAux fuel n acc =
      (if n < 10 then [digitChar n] else natDigits (n / 10) ++ [digitChar (n % 10)]) ++ acc := by
  induction n using Nat.strong_induction_on with
  | _ n ih =>
    intro fuel acc hf
    cases fuel with
    | zero => omega
    | succ f =>
      by_cases h : n < 10
      · simp [natDigitsAux, h]
      · have hlt : n / 10 < n := Nat.div_lt_self (by omega) (by omega)
        have e1 := ih (n / 10) hlt f (digitChar (n % 10) :: acc) (by omega)
        have e2 := ih (n / 10) hlt (n / 10 + 1) [] (by omega)
        simp only [natDigitsAux, h, if_false]
        rw [e1]
        have e3 : natDigits (n / 10) = natDigitsAux (n / 10 + 1) (n / 10) [] := rfl
        rw [e3, e2]
        simp

theorem natDigits_eq (n : Nat) :
    natDigits n =
      if n < 10 then [digitChar n] else natDigits (n / 10) ++ [digitChar (n % 10)] := by
  have := natDigitsAux_eq n (n + 1) [] (by omega)
  simpa [natDigits] using this

theorem natDigits_value (n : Nat) :
    (natDigits n).foldl (fun a c => a * 10 + digitVal c) 0 = n := by
  induction n using Nat.strong_induction_on with
  | _ n ih =>
    rw [natDigits_eq]
    by_cases h : n < 10
    · simp [h, digitVal_digitChar n h]
    · simp only [h, if_false, List.foldl_append, List.foldl_cons, List.foldl_nil]
      rw [ih (n / 10) (Nat.div_lt_self (by omega) (by omega)),
        digitVal_digitChar _ (Nat.mod_lt _ (by omega))]
      omega

theorem natDigits_injective (n m : Nat) (h : natDigits n = natDigits m) : n = m := by
  rw [← natDigits_value n, ← natDigits_value m, h]

theorem numberToString_injective (n m : Nat) (h : numberToString n = numberToString m) :
    n = m := by
  apply natDigits_injective
  exact congrArg String.data h

/-! ## addContact -/

theorem addContact_eq (E : Env) (now now2 : Nat) (setOk : Bool) (data : JsVal)
    (xs : List JsVal) (loading : Bool) (slot : Option String) :
    addContact E now now2 setOk data ⟨arr xs, loading, slot⟩ =
      .ok (⟨arr (xs ++ [newContact E now now2 data]), loading,
            if setOk then some (E.stringify (xs ++ [newContact E now now2 data])) else slot⟩,
           newContact E now now2 data) := by
  cases setOk <;> rfl

/-- Claim C2. For every collection `xs` and every record `fs` supplied by the
caller, `addContact` resolves to the new contact and leaves the collection
`xs` followed by that contact (one entry more, the entries of `xs` untouched
and in order); the new contact has the decimal clock reading as `id`, the ISO
timestamp of the current time as `createdAt`, `favorite = false`, and every
other field of the record, whatever the record says about `id`, `createdAt`
and `favorite`.  Two successive adds of `{name: "A"}` and `{name: "B"}` at
mount give the two-element collection in that order, both with
`favorite = false`. -/
theorem addContact_appends_new_contact (E : Env) (now now2 : Nat) (setOk : Bool)
    (xs : List JsVal) (loading : Bool) (slot : Option String) (fs : Props)
    (hfs : (keys fs).Nodup) :
    (∃ s1, addContact E now now2 setOk (obj fs) ⟨arr xs, loading, slot⟩
          = .ok (s1, newContact E now now2 (obj fs))
        ∧ s1.contacts = arr (xs ++ [newContact E now now2 (obj fs)])
        ∧ (xs ++ [newContact E now now2 (obj fs)]).length = xs.length + 1)
    ∧ (∃ gs, newContact E now now2 (obj fs) = obj gs
        ∧ (keys gs).Nodup
        ∧ lookup "id" gs = some (ofString (numberToString now))
        ∧ lookup "createdAt" gs = some (ofString (E.toISOString now2))
        ∧ lookup "favorite" gs = some (ofBool false)
        ∧ ∀ k, k ≠ "id" → k ≠ "createdAt" → k ≠ "favorite" → lookup k gs = lookup k fs)
    ∧ (∀ (t1 t2 t3 t4 : Nat) (ok1 ok2 : Bool), ∃ s1 s2,
        addContact E t1 t2 ok1 (obj [("name", ofString "A")]) (Store.initial slot)
          = .ok (s1, newContact E t1 t2 (obj [("name", ofString "A")]))
        ∧ addContact E t3 t4 ok2 (obj [("name", ofString "B")]) s1
          = .ok (s2, newContact E t3 t4 (obj [("name", ofString "B")]))
        ∧ s2.contacts = arr [newContact E t1 t2 (obj [("name", ofString "A")]),
            newContact E t3 t4 (obj [("name", ofString "B")])]
        ∧ getField (newContact E t1 t2 (obj [("name", ofString "A")])) "name"
            = .ok (ofString "A")
        ∧ getField (newContact E t3 t4 (obj [("name", ofString "B")])) "name"
            = .ok (ofString "B")
        ∧ getField (newContact E t1 t2 (obj [("name", ofString "A")])) "favorite"
            = .ok (ofBool false)
        ∧ getField (newContact E t3 t4 (obj [("name", ofString "B")])) "favorite"
            = .ok (ofBool false)) := by
  refine ⟨?_, ?_, ?_⟩
  · rw [addContact_eq]
    exact ⟨_, rfl, rfl, by simp⟩
  · refine ⟨_, rfl, ?_, ?_, ?_, ?_, ?_⟩
    · apply keys_setProp_nodup
      apply keys_setProp_nodup
      apply keys_setProp_nodup
      exact keys_assign_nodup [] _ (by simp [keys])
    · rw [lookup_setProp_ne _ _ _ _ (by decide), lookup_setProp_ne _ _ _ _ (by decide),
        lookup_setProp_same]
    · rw [lookup_setProp_ne _ _ _ _ (by decide), lookup_setProp_same]
    · rw [lookup_setProp_same]
    · intro k h1 h2 h3
      rw [lookup_setProp_ne _ _ _ _ h3, lookup_setProp_ne _ _ _ _ h2,
        lookup_setProp_ne _ _ _ _ h1]
      show lookup k (assign [] fs) = lookup k fs
      rw [assign_nil fs hfs]
  · intro t1 t2 t3 t4 ok1 ok2
    refine ⟨_, _, addContact_eq _ _ _ _ _ _ _ _, addContact_eq _ _ _ _ _ _ _ _, rfl,
      ?_, ?_, ?_, ?_⟩ <;>
      simp [newContact, getField, spread, ownProps, assign, setProp, lookup]

theorem addContact_appends_new_contact_witness :
    (keys [("name", ofString "Ada"), ("id", ofString "x")]).Nodup ∧
    ((∃ s1, addContact (refEnv demoSeed) 1700000000000 1700000000001 true
            (obj [("name", ofString "Ada"), ("id", ofString "x")])
            ⟨arr demoSeed, false, none⟩
          = .ok (s1, newContact (refEnv demoSeed) 1700000000000 1700000000001
              (obj [("name", ofString "Ada"), ("id", ofString "x")]))
        ∧ s1.contacts = arr (demoSeed ++ [newContact (refEnv demoSeed) 1700000000000
            1700000000001 (obj [("name", ofString "Ada"), ("id", ofString "x")])])
        ∧ (demoSeed ++ [newContact (refEnv demoSeed) 1700000000000 1700000000001
            (obj [("name", ofString "Ada"), ("id", ofString "x")])]).length
            = demoSeed.length + 1)) ∧
    newContact (refEnv demoSeed) 1700000000000 1700000000001
        (obj [("name", ofString "Ada"), ("id", ofString "x")])
      = obj [("name", ofString "Ada"), ("id", ofString "1700000000000"),
             ("createdAt", ofString "2023-11-14T22:13:20.001Z"), ("favorite", ofBool false)] :=
  ⟨by decide,
   (addContact_appends_new_contact (refEnv demoSeed) 1700000000000 1700000000001 true
      demoSeed false none [("name", ofString "Ada"), ("id", ofString "x")] (by decide)).1,
   by decide⟩

/-! ## updateContact -/

theorem mapE_updateEntry (id : JsPrim) (data : JsVal) (cs : List Props) :
    mapE (updateEntry id data) (cs.map obj)
      = .ok ((cs.map (updateProps id data)).map obj) := by
  induction cs with
  | nil => rfl
  | cons c cs ih =>
    have h : updateEntry id data (obj c) = .ok (obj (updateProps id data c)) := by
      simp only [updateEntry, getField, updateProps, idOf]
      split <;> rfl
    simp only [List.map_cons, mapE, h, ih]

theorem updateContact_eq (E : Env) (setOk : Bool) (id : JsPrim) (data : JsVal)
    (cs : List Props) (loading : Bool) (slot : Option String) :
    updateContact E setOk id data ⟨records cs, loading, slot⟩ =
      .ok ⟨records (cs.map (updateProps id data)), loading,
        if setOk then some (E.stringify ((cs.map (updateProps id data)).map obj)) else slot⟩ := by
  simp only [updateContact, records, arrayMap, mapE_updateEntry]
  cases setOk <;> rfl

theorem lookup_updateProps (id : JsPrim) (data c : Props) (hdata : (keys data).Nodup)
    (hc : (keys c).Nodup) (h : strictEq (idOf c) id = true) (k : String) :
    lookup k (updateProps id (obj data) c) = (lookup k data).or (lookup k c) := by
  simp only [updateProps, h, if_true, spread, ownProps]
  rw [lookup_assign k _ data hdata, assign_nil c hc]

theorem updateProps_of_ne (id : JsPrim) (data : JsVal) (c : Props)
    (h : strictEq (idOf c) id = false) : updateProps id data c = c := by
  simp [updateProps, h]

theorem map_updateProps_of_absent (id : JsPrim) (data : JsVal) (cs : List Props)
    (h : ∀ c ∈ cs, strictEq (idOf c) id = false) : cs.map (updateProps id data) = cs := by
  induction cs with
  | nil => rfl
  | cons c cs ih =>
    rw [List.map_cons, updateProps_of_ne id data c (h c (List.mem_cons_self _ _)),
      ih (fun d hd => h d (List.mem_cons_of_mem _ hd))]

/-- Claim C3. For every collection of records `cs`, every id and every record
`data`, `updateContact` resolves and leaves a collection of the same length
in which, position by position, an entry whose `id` is `===` to the id has
every field named in `data` at the value `data` gives and every other field at
its old value, and an entry whose `id` differs is the entry it was.  With
`data = {name: "Z"}` a matching entry changes in its `name` field only, and
when no entry has the id the collection is unchanged. -/
theorem updateContact_shallow_merge (E : Env) (setOk : Bool) (id : JsPrim) (data : Props)
    (cs : List Props) (loading : Bool) (slot : Option String)
    (hdata : (keys data).Nodup) (hcs : ∀ c ∈ cs, (keys c).Nodup) :
    (∃ s1 ds, updateContact E setOk id (obj data) ⟨records cs, loading, slot⟩ = .ok s1
      ∧ s1.contacts = records ds ∧ ds.length = cs.length
      ∧ (∀ (i : Nat) (c : Props), cs[i]? = some c → ∃ d, ds[i]? = some d
          ∧ (strictEq (idOf c) id = true → ∀ k, lookup k d = (lookup k data).or (lookup k c))
          ∧ (strictEq (idOf c) id = false → d = c))
      ∧ ((∀ c ∈ cs, strictEq (idOf c) id = false) → s1.contacts = records cs))
    ∧ (∃ s1 ds, updateContact E setOk id (obj [("name", ofString "Z")])
          ⟨records cs, loading, slot⟩ = .ok s1
      ∧ s1.contacts = records ds ∧ ds.length = cs.length
      ∧ ∀ (i : Nat) (c : Props), cs[i]? = some c → ∃ d, ds[i]? = some d
          ∧ (strictEq (idOf c) id = true → lookup "name" d = some (ofString "Z")
              ∧ ∀ k, k ≠ "name" → lookup k d = lookup k c)
          ∧ (strictEq (idOf c) id = false → d = c)) := by
  refine ⟨⟨_, _, updateContact_eq E setOk id _ cs loading slot, rfl, by simp, ?_, ?_⟩,
    ⟨_, _, updateContact_eq E setOk id _ cs loading slot, rfl, by simp, ?_⟩⟩
  · intro i c hi
    refine ⟨updateProps id (obj data) c, by simp [hi], ?_, ?_⟩
    · intro h k
      exact lookup_updateProps id data c hdata (hcs c (List.getElem?_mem hi)) h k
    · intro h
      exact updateProps_of_ne id _ c h
  · intro h
    show records _ = records cs
    rw [map_updateProps_of_absent id _ cs h]
  · intro i c hi
    refine ⟨updateProps id (obj [("name", ofString "Z")]) c, by simp [hi], ?_, ?_⟩
    · intro h
      have hc := hcs c (List.getElem?_mem hi)
      have hn : (keys [("name", ofString "Z")]).Nodup := by simp [keys]
      refine ⟨?_, ?_⟩
      · rw [lookup_updateProps id _ c hn hc h]
        simp [lookup]
      · intro k hk
        rw [lookup_updateProps id _ c hn hc h]
        have : ¬ "name" = k := fun e => hk e.symm
        simp [lookup, this]
    · intro h
      exact updateProps_of_ne id _ c h

theorem updateContact_shallow_merge_witness :
    (keys [("name", ofString "Z")]).Nodup ∧ (∀ c ∈ [[("id", ofString "1"), ("name", ofString "Ada"),
        ("favorite", ofBool true)], [("id", ofString "2"), ("name", ofString "Alan")]],
      (keys c).Nodup) ∧
    ∃ s1 ds, updateContact (refEnv demoSeed) true (JsPrim.str "2") (obj [("name", ofString "Z")])
        ⟨records [[("id", ofString "1"), ("name", ofString "Ada"), ("favorite", ofBool true)],
          [("id", ofString "2"), ("name", ofString "Alan")]], false, none⟩ = .ok s1
      ∧ s1.contacts = records ds ∧ ds.length = 2 :=
  ⟨by decide, by decide,
   let ⟨s1, ds, h1, h2, h3, _⟩ := (updateContact_shallow_merge (refEnv demoSeed) true
      (JsPrim.str "2") [("name", ofString "Z")]
      [[("id", ofString "1"), ("name", ofString "Ada"), ("favorite", ofBool true)],
       [("id", ofString "2"), ("name", ofString "Alan")]] false none (by decide) (by decide)).1
   ⟨s1, ds, h1, h2, h3⟩⟩

/-! ## deleteContact -/

theorem jsNum_eq_of_strictEq {x y : JsNum} (h : x.strictEq y = true) : x = y := by
  cases x <;> cases y <;> simp_all [JsNum.strictEq]

theorem jsPrim_eq_of_strictEq {p q : JsPrim} (h : p.strictEq q = true) : p = q := by
  cases p <;> cases q <;> simp_all [JsPrim.strictEq]
  exact jsNum_eq_of_strictEq h

theorem eq_of_strictEq {v : JsVal} {p : JsPrim} (h : strictEq v p = true) : v = prim p := by
  cases v with
  | prim q => rw [jsPrim_eq_of_strictEq h]
  | arr xs => simp [strictEq] at h
  | obj fs => simp [strictEq] at h

theorem filterE_keepEntry (id : JsPrim) (cs : List Props) :
    filterE (keepEntry id) (cs.map obj)
      = .ok ((cs.filter fun c => !strictEq (idOf c) id).map obj) := by
  induction cs with
  | nil => rfl
  | cons c cs ih =>
    have h : keepEntry id (obj c) = .ok (!strictEq (idOf c) id) := rfl
    simp only [List.map_cons, filterE, h, ih, List.filter_cons]
    cases strictEq (idOf c) id <;> simp

theorem deleteContact_eq (E : Env) (setOk : Bool) (id : JsPrim)
    (cs : List Props) (loading : Bool) (slot : Option String) :
    deleteContact E setOk id ⟨records cs, loading, slot⟩ =
      .ok ⟨records (cs.filter fun c => !strictEq (idOf c) id), loading,
        if setOk then some (E.stringify ((cs.filter fun c => !strictEq (idOf c) id).map obj))
        else slot⟩ := by
  simp only [deleteContact, records, arrayFilter, filterE_keepEntry]
  cases setOk <;> rfl

theorem countP_strictEq_le_one (id : JsPrim) (cs : List Props) (h : (ids cs).Nodup) :
    cs.countP (fun c => strictEq (idOf c) id) ≤ 1 := by
  induction cs with
  | nil => simp
  | cons c cs ih =>
    simp only [ids, List.map_cons, List.nodup_cons] at h
    rw [List.countP_cons]
    by_cases hc : strictEq (idOf c) id = true
    · have h0 : cs.countP (fun c => strictEq (idOf c) id) = 0 := by
        rw [List.countP_eq_zero]
        intro d hd hdm
        apply h.1
        rw [eq_of_strictEq hc, ← eq_of_strictEq hdm]
        exact List.mem_map_of_mem idOf hd
      simp [h0, hc]
    · have := ih h.2
      simp only [hc]
      simpa using this

theorem length_filter_add_countP (p : Props → Bool) (cs : List Props) :
    (cs.filter fun c => !p c).length + cs.countP p = cs.length := by
  induction cs with
  | nil => rfl
  | cons c cs ih =>
    rw [List.filter_cons, List.countP_cons]
    cases h : p c <;> simp [h] <;> omega

/-- Claim C4, amended. For every collection of records `cs` and every id,
`deleteContact` resolves and leaves the entries of `cs` whose `id` is not
`===` to the id, unchanged and in their relative order; no remaining entry has
the id; the length decreases by the number of entries that had it, which is
exactly one when the ids of `cs` are pairwise distinct and some entry has the
id; and when no entry has the id the collection is unchanged. -/
theorem deleteContact_removes_matching (E : Env) (setOk : Bool) (id : JsPrim)
    (cs : List Props) (loading : Bool) (slot : Option String) :
    ∃ s1 ds, deleteContact E setOk id ⟨records cs, loading, slot⟩ = .ok s1
      ∧ s1.contacts = records ds
      ∧ ds = cs.filter (fun c => !strictEq (idOf c) id)
      ∧ ds.Sublist cs
      ∧ (∀ d ∈ ds, strictEq (idOf d) id = false)
      ∧ ds.length + cs.countP (fun c => strictEq (idOf c) id) = cs.length
      ∧ ((ids cs).Nodup → (∃ c ∈ cs, strictEq (idOf c) id = true) →
          ds.length + 1 = cs.length)
      ∧ ((∀ c ∈ cs, strictEq (idOf c) id = false) → s1.contacts = records cs) := by
  refine ⟨_, _, deleteContact_eq E setOk id cs loading slot, rfl, rfl,
    List.filter_sublist _, ?_, length_filter_add_countP _ cs, ?_, ?_⟩
  · intro d hd
    have := (List.mem_filter.mp hd).2
    simpa using this
  · intro hnd hex
    have h1 := countP_strictEq_le_one id cs hnd
    have h2 : 0 < cs.countP (fun c => strictEq (idOf c) id) := by
      rw [List.countP_pos_iff]
      obtain ⟨c, hc, hm⟩ := hex
      exact ⟨c, hc, hm⟩
    have h3 := length_filter_add_countP (fun c => strictEq (idOf c) id) cs
    omega
  · intro h
    show records _ = records cs
    congr 1
    rw [List.filter_eq_self]
    intro c hc
    simp [h c hc]

theorem deleteContact_removes_matching_witness :
    ∃ s1 ds, deleteContact (refEnv demoSeed) true (JsPrim.str "2")
        ⟨records [[("id", ofString "1"), ("name", ofString "Ada")],
          [("id", ofString "2"), ("name", ofString "Alan")]], false, none⟩ = .ok s1
      ∧ s1.contacts = records ds
      ∧ ds = [[("id", ofString "1"), ("name", ofString "Ada")]] :=
  let ⟨s1, ds, h1, h2, h3, _⟩ := deleteContact_removes_matching (refEnv demoSeed) true
    (JsPrim.str "2") [[("id", ofString "1"), ("name", ofString "Ada")],
      [("id", ofString "2"), ("name", ofString "Alan")]] false none
  ⟨s1, ds, h1, h2, h3.trans (by decide)⟩

/-- Claim C4, counterexample. Two adds at the same clock reading leave two
entries with the same `id`, and removing that id shrinks the collection by
two, not by one. -/
theorem deleteContact_shrinks_by_two :
    ∃ s1 s2 a b,
      addContact (refEnv demoSeed) 1 1 true (obj [("name", ofString "A")])
          ⟨arr [], false, none⟩ = .ok (s1, a)
      ∧ addContact (refEnv demoSeed) 1 1 true (obj [("name", ofString "B")]) s1 = .ok (s2, b)
      ∧ s2.contacts = arr [a, b]
      ∧ getField a "id" = .ok (ofString "1")
      ∧ deleteContact (refEnv demoSeed) true (JsPrim.str "1") s2
        = .ok ⟨arr [], false, some "[]"⟩ :=
  ⟨_, _, _, _, rfl, rfl, by decide, by decide, by decide⟩

/-! ## toggleFavorite -/

theorem setProp_setProp_same (k : String) (v w : JsVal) (fs : Props) :
    setProp k v (setProp k w fs) = setProp k v fs := by
  induction fs with
  | nil => simp [setProp]
  | cons kv fs ih =>
    obtain ⟨k', v'⟩ := kv
    by_cases h : k' = k <;> simp [setProp, h, ih]

theorem setProp_of_lookup (k : String) (v : JsVal) (fs : Props) (h : lookup k fs = some v) :
    setProp k v fs = fs := by
  induction fs with
  | nil => simp [lookup] at h
  | cons kv fs ih =>
    obtain ⟨k', v'⟩ := kv
    by_cases hk : k' = k
    · simp only [lookup, hk, if_true, Option.some.injEq] at h
      simp [setProp, hk, h]
    · simp only [lookup, hk, if_false] at h
      simp [setProp, hk, ih h]

theorem toggleProps_eq (id : JsPrim) (c : Props) (hc : (keys c).Nodup) :
    toggleProps id c =
      if strictEq (idOf c) id then setProp "favorite" (jsNot (favoriteOf c)) c else c := by
  simp only [toggleProps, spread, ownProps, assign_nil c hc]

theorem idOf_setProp_favorite (v : JsVal) (c : Props) :
    idOf (setProp "favorite" v c) = idOf c := by
  simp only [idOf]
  rw [lookup_setProp_ne "favorite" "id" v c (by decide)]

theorem favoriteOf_setProp_favorite (v : JsVal) (c : Props) :
    favoriteOf (setProp "favorite" v c) = v := by
  simp [favoriteOf, lookup_setProp_same]

theorem jsNot_jsNot (v : JsVal) : jsNot (jsNot v) = ofBool (truthy v) := by
  simp [jsNot, ofBool, truthy, JsPrim.truthy]

theorem mapE_toggleEntry (id : JsPrim) (cs : List Props) :
    mapE (toggleEntry id) (cs.map obj) = .ok ((cs.map (toggleProps id)).map obj) := by
  induction cs with
  | nil => rfl
  | cons c cs ih =>
    have h : toggleEntry id (obj c) = .ok (obj (toggleProps id c)) := by
      simp only [toggleEntry, getField, toggleProps, idOf, favoriteOf]
      split <;> rfl
    simp only [List.map_cons, mapE, h, ih]

theorem toggleFavorite_eq (E : Env) (setOk : Bool) (id : JsPrim)
    (cs : List Props) (loading : Bool) (slot : Option String) :
    toggleFavorite E setOk id ⟨records cs, loading, slot⟩ =
      .ok ⟨records (cs.map (toggleProps id)), loading,
        if setOk then some (E.stringify ((cs.map (toggleProps id)).map obj)) else slot⟩ := by
  simp only [toggleFavorite, records, arrayMap, mapE_toggleEntry]
  cases setOk <;> rfl

theorem toggleProps_keys_nodup (id : JsPrim) (c : Props) (hc : (keys c).Nodup) :
    (keys (toggleProps id c)).Nodup := by
  rw [toggleProps_eq id c hc]
  split
  · exact keys_setProp_nodup _ _ _ hc
  · exact hc

theorem toggleProps_toggleProps (id : JsPrim) (c : Props) (hc : (keys c).Nodup) :
    toggleProps id (toggleProps id c) =
      if strictEq (idOf c) id then setProp "favorite" (ofBool (truthy (favoriteOf c))) c
      else c := by
  rw [toggleProps_eq id _ (toggleProps_keys_nodup id c hc), toggleProps_eq id c hc]
  by_cases h : strictEq (idOf c) id = true
  · simp only [h, if_true, idOf_setProp_favorite, favoriteOf_setProp_favorite, jsNot_jsNot,
      setProp_setProp_same]
  · simp only [h, if_false]
    simp [h]

/-- Claim C5, amended. For every collection of records `cs` and every id, one
`toggleFavorite` sets `favorite` to the logical negation of its truthiness on
the entries whose `id` is `===` to the id, and leaves their other fields,
the other entries and the order as they were; when no entry has the id the
collection is unchanged.  Two calls in succession leave `favorite` of a
matching entry at the boolean truthiness of its original value, every other
field and entry as it was; so when `favorite` of every matching entry is a
boolean the collection after the two calls is `cs` again. -/
theorem toggleFavorite_twice (E : Env) (ok1 ok2 : Bool) (id : JsPrim)
    (cs : List Props) (loading : Bool) (slot : Option String)
    (hcs : ∀ c ∈ cs, (keys c).Nodup) :
    ∃ s1 s2 ds1 ds2,
      toggleFavorite E ok1 id ⟨records cs, loading, slot⟩ = .ok s1
      ∧ toggleFavorite E ok2 id s1 = .ok s2
      ∧ s1.contacts = records ds1 ∧ s2.contacts = records ds2
      ∧ ds1.length = cs.length ∧ ds2.length = cs.length
      ∧ (∀ (i : Nat) (c : Props), cs[i]? = some c → ∃ d1 d2, ds1[i]? = some d1 ∧ ds2[i]? = some d2
          ∧ (strictEq (idOf c) id = true →
              lookup "favorite" d1 = some (ofBool (!truthy (favoriteOf c)))
              ∧ lookup "favorite" d2 = some (ofBool (truthy (favoriteOf c)))
              ∧ ∀ k, k ≠ "favorite" → lookup k d1 = lookup k c ∧ lookup k d2 = lookup k c)
          ∧ (strictEq (idOf c) id = false → d1 = c ∧ d2 = c))
      ∧ ((∀ c ∈ cs, strictEq (idOf c) id = false) → s1.contacts = records cs)
      ∧ ((∀ c ∈ cs, strictEq (idOf c) id = true → ∃ b, lookup "favorite" c = some (ofBool b)) →
          s2.contacts = records cs) := by
  refine ⟨_, _, cs.map (toggleProps id), (cs.map (toggleProps id)).map (toggleProps id),
    toggleFavorite_eq E ok1 id cs loading slot, toggleFavorite_eq E ok2 id _ _ _,
    rfl, rfl, by simp, by simp, ?_, ?_, ?_⟩
  · intro i c hi
    have hc := hcs c (List.getElem?_mem hi)
    refine ⟨toggleProps id c, toggleProps id (toggleProps id c), by simp [hi], by simp [hi],
      ?_, ?_⟩
    · intro h
      rw [toggleProps_toggleProps id c hc, toggleProps_eq id c hc]
      simp only [h, if_true]
      refine ⟨by rw [lookup_setProp_same]; rfl, by rw [lookup_setProp_same], ?_⟩
      intro k hk
      exact ⟨lookup_setProp_ne _ _ _ _ hk, lookup_setProp_ne _ _ _ _ hk⟩
    · intro h
      rw [toggleProps_toggleProps id c hc, toggleProps_eq id c hc]
      simp [h]
  · intro h
    show records _ = records cs
    congr 1
    conv_rhs => rw [← List.map_id cs]
    apply List.map_congr_left
    intro c hc
    rw [toggleProps_eq id c (hcs c hc)]
    simp [h c hc]
  · intro h
    show records _ = records cs
    congr 1
    rw [List.map_map]
    conv_rhs => rw [← List.map_id cs]
    apply List.map_congr_left
    intro c hc
    simp only [Function.comp_apply, id_eq]
    rw [toggleProps_toggleProps id c (hcs c hc)]
    by_cases hm : strictEq (idOf c) id = true
    · obtain ⟨b, hb⟩ := h c hc hm
      simp only [hm, if_true]
      apply setProp_of_lookup
      rw [hb]
      simp [favoriteOf, hb, ofBool, truthy, JsPrim.truthy]
    · simp [hm]

theorem toggleFavorite_twice_witness :
    (∀ c ∈ [[("id", ofString "1"), ("name", ofString "Ada"), ("favorite", ofBool false)]],
      (keys c).Nodup) ∧
    ∃ s1 s2 ds1 ds2,
      toggleFavorite (refEnv demoSeed) true (JsPrim.str "1")
        ⟨records [[("id", ofString "1"), ("name", ofString "Ada"), ("favorite", ofBool false)]],
          false, none⟩ = .ok s1
      ∧ toggleFavorite (refEnv demoSeed) true (JsPrim.str "1") s1 = .ok s2
      ∧ s1.contacts = records ds1 ∧ s2.contacts = records ds2 :=
  ⟨by decide,
   let ⟨s1, s2, ds1, ds2, h1, h2, h3, h4, _⟩ := toggleFavorite_twice (refEnv demoSeed) true true
      (JsPrim.str "1")
      [[("id", ofString "1"), ("name", ofString "Ada"), ("favorite", ofBool false)]]
      false none (by decide)
   ⟨s1, s2, ds1, ds2, h1, h2, h3, h4⟩⟩

/-- Claim C5, counterexample. An added contact whose `favorite` was updated to
the string `"yes"` has `favorite = true` after two toggles: the two calls do
not give back the collection they started from. -/
theorem toggleFavorite_twice_not_identity :
    ∃ s1 s2 s3 s4 a,
      addContact (refEnv demoSeed) 1 1 true (obj [("name", ofString "A")])
          ⟨arr [], false, none⟩ = .ok (s1, a)
      ∧ updateContact (refEnv demoSeed) true (JsPrim.str "1") (obj [("favorite", ofString "yes")])
          s1 = .ok s2
      ∧ toggleFavorite (refEnv demoSeed) true (JsPrim.str "1") s2 = .ok s3
      ∧ toggleFavorite (refEnv demoSeed) true (JsPrim.str "1") s3 = .ok s4
      ∧ s2.contacts = arr [obj [("name", ofString "A"), ("id", ofString "1"),
          ("createdAt", ofString "1970-01-01T00:00:00.001Z"), ("favorite", ofString "yes")]]
      ∧ s4.contacts = arr [obj [("name", ofString "A"), ("id", ofString "1"),
          ("createdAt", ofString "1970-01-01T00:00:00.001Z"), ("favorite", ofBool true)]]
      ∧ s4.contacts ≠ s2.contacts :=
  ⟨_, _, _, _, _, rfl, rfl, rfl, rfl, by decide, by decide, by decide⟩

/-! ## loadContacts -/

theorem loadContacts_of_falsy (E : Env) (setOk : Bool) (s : Store)
    (h : storedTruthy s.slot = false) :
    loadContacts E true setOk s =
      .ok ⟨arr E.sampleContacts, false,
        if setOk then some (E.stringify E.sampleContacts) else s.slot⟩ := by
  cases setOk <;> simp [loadContacts, loadTry, getItem, setItem, h]

theorem loadContacts_of_read_failure (E : Env) (setOk : Bool) (s : Store) :
    loadContacts E false setOk s = .ok ⟨arr E.sampleContacts, false, s.slot⟩ := by
  simp [loadContacts, loadTry, getItem]

theorem loadContacts_of_parse_failure (E : Env) (setOk : Bool) (s : Store) (stored : String)
    (e : JsError) (hs : s.slot = some stored) (hne : stored ≠ "")
    (hp : E.parse stored = .error e) :
    loadContacts E true setOk s = .ok ⟨arr E.sampleContacts, false, s.slot⟩ := by
  simp [loadContacts, loadTry, getItem, storedTruthy, hs, hne, hp]

theorem loadContacts_of_parse_success (E : Env) (setOk : Bool) (s : Store) (stored : String)
    (v : JsVal) (hs : s.slot = some stored) (hne : stored ≠ "")
    (hp : E.parse stored = .ok v) :
    loadContacts E true setOk s = .ok ⟨v, false, s.slot⟩ := by
  simp [loadContacts, loadTry, getItem, storedTruthy, hs, hne, hp]

/-- Claim C6, amended. When the slot is empty (the read succeeds and returns
nothing, or the empty string), `loadContacts` resolves with the seed list as
the in-memory collection and `loading = false`; when the write of the seed list
succeeds the slot afterwards holds the serialization of the seed list, and when
that write fails the slot is left as it was. -/
theorem loadContacts_seeds_empty_slot (E : Env) (setOk : Bool) (s : Store)
    (h : s.slot = none ∨ s.slot = some "") :
    ∃ s1, loadContacts E true setOk s = .ok s1
      ∧ s1.contacts = arr E.sampleContacts
      ∧ s1.loading = false
      ∧ (setOk = true → s1.slot = some (E.stringify E.sampleContacts))
      ∧ (setOk = false → s1.slot = s.slot) := by
  have hf : storedTruthy s.slot = false := by
    rcases h with h | h <;> simp [h, storedTruthy]
  refine ⟨_, loadContacts_of_falsy E setOk s hf, rfl, rfl, ?_, ?_⟩ <;> intro h1 <;> simp [h1]

theorem loadContacts_seeds_empty_slot_witness :
    ∃ s1, loadContacts (refEnv demoSeed) true true (Store.initial none) = .ok s1
      ∧ s1.contacts = arr demoSeed
      ∧ s1.loading = false
      ∧ s1.slot = some (jsonStringify demoSeed) :=
  let ⟨s1, h1, h2, h3, h4, _⟩ :=
    loadContacts_seeds_empty_slot (refEnv demoSeed) true (Store.initial none) (Or.inl rfl)
  ⟨s1, h1, h2, h3, h4 rfl⟩

/-- Claim C6, counterexample. With an empty slot, a read that succeeds and a
write that fails, `loadContacts` adopts the seed list and the slot is still
empty afterwards. -/
theorem loadContacts_empty_slot_write_fails :
    loadContacts (refEnv demoSeed) true false (Store.initial none)
      = .ok ⟨arr demoSeed, false, none⟩
    ∧ (none : Option String) ≠ some (jsonStringify demoSeed) := by
  decide

/-- Claim C7, amended. For every failure of the read, and for every non-empty
stored text whose parse fails, `loadContacts` resolves (it does not raise) with
the seed list as the in-memory collection, the slot as it was, and
`loading = false`. -/
theorem loadContacts_falls_back_to_seed (E : Env) (setOk : Bool) (s : Store) :
    (∃ s1, loadContacts E false setOk s = .ok s1
      ∧ s1.contacts = arr E.sampleContacts ∧ s1.slot = s.slot ∧ s1.loading = false)
    ∧ (∀ stored e, s.slot = some stored → stored ≠ "" → E.parse stored = .error e →
        ∃ s1, loadContacts E true setOk s = .ok s1
          ∧ s1.contacts = arr E.sampleContacts ∧ s1.slot = s.slot ∧ s1.loading = false) := by
  refine ⟨⟨_, loadContacts_of_read_failure E setOk s, rfl, rfl, rfl⟩, ?_⟩
  intro stored e hs hne hp
  exact ⟨_, loadContacts_of_parse_failure E setOk s stored e hs hne hp, rfl, rfl, rfl⟩

theorem loadContacts_falls_back_to_seed_witness :
    ∃ s1, loadContacts (refEnv demoSeed) true true (Store.initial (some "[1,")) = .ok s1
      ∧ s1.contacts = arr demoSeed ∧ s1.slot = some "[1," ∧ s1.loading = false :=
  (loadContacts_falls_back_to_seed (refEnv demoSeed) true (Store.initial (some "[1,"))).2
    "[1," JsError.syntaxError rfl (by decide) (by decide)

/-- Claim C7, counterexample. The empty string cannot be parsed, yet a slot
holding it is treated as an empty slot: the seed list is adopted and written,
so the content of the slot changes. -/
theorem loadContacts_overwrites_empty_string :
    jsonParse "" = .error JsError.syntaxError
    ∧ loadContacts (refEnv demoSeed) true true (Store.initial (some ""))
      = .ok ⟨arr demoSeed, false, some (jsonStringify demoSeed)⟩
    ∧ some (jsonStringify demoSeed) ≠ some "" := by
  decide

/-! ## Persist failures -/

/-- Claim C9, amended. For every mutating operation, every collection and every
argument, when the write fails the operation resolves with the same in-memory
collection as when the write succeeds (and `addContact` with the same new
contact), and the slot keeps the content it had before the call; so the slot
holds the serialization of the in-memory collection afterwards only if it
already held it before. -/
theorem persist_failure_keeps_update (E : Env) (now now2 : Nat) (id : JsPrim) (data : JsVal)
    (xs : List JsVal) (cs : List Props) (loading : Bool) (slot : Option String) :
    (∃ s1 s2 c ys, addContact E now now2 true data ⟨arr xs, loading, slot⟩ = .ok (s1, c)
        ∧ addContact E now now2 false data ⟨arr xs, loading, slot⟩ = .ok (s2, c)
        ∧ s1.contacts = arr ys ∧ s2.contacts = arr ys
        ∧ s1.slot = some (E.stringify ys) ∧ s2.slot = slot
        ∧ (slot ≠ some (E.stringify ys) → s2.slot ≠ some (E.stringify ys)))
    ∧ (∃ s1 s2 ys, updateContact E true id data ⟨records cs, loading, slot⟩ = .ok s1
        ∧ updateContact E false id data ⟨records cs, loading, slot⟩ = .ok s2
        ∧ s1.contacts = arr ys ∧ s2.contacts = arr ys
        ∧ s1.slot = some (E.stringify ys) ∧ s2.slot = slot
        ∧ (slot ≠ some (E.stringify ys) → s2.slot ≠ some (E.stringify ys)))
    ∧ (∃ s1 s2 ys, deleteContact E true id ⟨records cs, loading, slot⟩ = .ok s1
        ∧ deleteContact E false id ⟨records cs, loading, slot⟩ = .ok s2
        ∧ s1.contacts = arr ys ∧ s2.contacts = arr ys
        ∧ s1.slot = some (E.stringify ys) ∧ s2.slot = slot
        ∧ (slot ≠ some (E.stringify ys) → s2.slot ≠ some (E.stringify ys)))
    ∧ (∃ s1 s2 ys, toggleFavorite E true id ⟨records cs, loading, slot⟩ = .ok s1
        ∧ toggleFavorite E false id ⟨records cs, loading, slot⟩ = .ok s2
        ∧ s1.contacts = arr ys ∧ s2.contacts = arr ys
        ∧ s1.slot = some (E.stringify ys) ∧ s2.slot = slot
        ∧ (slot ≠ some (E.stringify ys) → s2.slot ≠ some (E.stringify ys))) := by
  refine ⟨⟨_, _, _, _, addContact_eq E now now2 true data xs loading slot,
      addContact_eq E now now2 false data xs loading slot, rfl, rfl, rfl, rfl, fun h => h⟩,
    ⟨_, _, _, updateContact_eq E true id data cs loading slot,
      updateContact_eq E false id data cs loading slot, rfl, rfl, rfl, rfl, fun h => h⟩,
    ⟨_, _, _, deleteContact_eq E true id cs loading slot,
      deleteContact_eq E false id cs loading slot, rfl, rfl, rfl, rfl, fun h => h⟩,
    ⟨_, _, _, toggleFavorite_eq E true id cs loading slot,
      toggleFavorite_eq E false id cs loading slot, rfl, rfl, rfl, rfl, fun h => h⟩⟩

/-- Claim C9, counterexample. An update with an id that no entry has, on a
store whose slot holds the serialization of its collection, with a failing
write: the in-memory collection and the slot content still agree. -/
theorem persist_failure_without_divergence :
    updateContact (refEnv demoSeed) false (JsPrim.str "9") (obj [("name", ofString "Z")])
        ⟨arr demoSeed, false, some (jsonStringify demoSeed)⟩
      = .ok ⟨arr demoSeed, false, some (jsonStringify demoSeed)⟩ := by
  decide

/-! ## Uniqueness of ids -/

theorem idOf_updateProps (id : JsPrim) (data c : Props) (hdata : (keys data).Nodup)
    (hc : (keys c).Nodup) (hid : lookup "id" data = none) :
    idOf (updateProps id (obj data) c) = idOf c := by
  by_cases h : strictEq (idOf c) id = true
  · simp only [idOf]
    rw [lookup_updateProps id data c hdata hc h "id", hid]
    rfl
  · rw [updateProps_of_ne id _ c (by simpa using h)]

theorem idOf_toggleProps (id : JsPrim) (c : Props) (hc : (keys c).Nodup) :
    idOf (toggleProps id c) = idOf c := by
  rw [toggleProps_eq id c hc]
  split
  · exact idOf_setProp_favorite _ c
  · rfl

theorem newContact_eq (E : Env) (now now2 : Nat) (data : JsVal) :
    newContact E now now2 data =
      obj (setProp "favorite" (ofBool false)
        (setProp "createdAt" (ofString (E.toISOString now2))
          (setProp "id" (ofString (numberToString now)) (spread [] data)))) := rfl

theorem getField_id_newContact (E : Env) (now now2 : Nat) (data : JsVal) :
    getField (newContact E now now2 data) "id" = .ok (ofString (numberToString now)) := by
  simp only [newContact_eq, getField]
  rw [lookup_setProp_ne _ _ _ _ (by decide), lookup_setProp_ne _ _ _ _ (by decide),
    lookup_setProp_same]
  rfl

/-- Claim C1, amended. Starting from a collection of records whose `id` values
are pairwise distinct: `deleteContact` and `toggleFavorite` leave them pairwise
distinct; `updateContact` does when the data supplies no `id` field;
`addContact` does when the decimal clock reading it uses as `id` is not the
`id` of an entry already there.  Two successive adds whose `Date.now()`
readings differ produce entries with distinct ids. -/
theorem ids_stay_distinct (E : Env) (setOk : Bool) (id : JsPrim) (data : Props)
    (now now2 : Nat) (cs : List Props) (loading : Bool) (slot : Option String)
    (hcs : ∀ c ∈ cs, (keys c).Nodup) (hdata : (keys data).Nodup) (hids : (ids cs).Nodup) :
    (∃ s1 ds, deleteContact E setOk id ⟨records cs, loading, slot⟩ = .ok s1
        ∧ s1.contacts = records ds ∧ (ids ds).Nodup)
    ∧ (∃ s1 ds, toggleFavorite E setOk id ⟨records cs, loading, slot⟩ = .ok s1
        ∧ s1.contacts = records ds ∧ (ids ds).Nodup)
    ∧ (lookup "id" data = none →
        ∃ s1 ds, updateContact E setOk id (obj data) ⟨records cs, loading, slot⟩ = .ok s1
          ∧ s1.contacts = records ds ∧ (ids ds).Nodup)
    ∧ (ofString (numberToString now) ∉ ids cs →
        ∃ s1 c ds, addContact E now now2 setOk (obj data) ⟨records cs, loading, slot⟩
            = .ok (s1, c)
          ∧ s1.contacts = records ds ∧ (ids ds).Nodup)
    ∧ (∀ (t t2 : Nat) (ok2 : Bool) (data2 : JsVal), now ≠ t →
        ∃ s1 s2 a b, addContact E now now2 setOk (obj data) ⟨records cs, loading, slot⟩
            = .ok (s1, a)
          ∧ addContact E t t2 ok2 data2 s1 = .ok (s2, b)
          ∧ getField a "id" = .ok (ofString (numberToString now))
          ∧ getField b "id" = .ok (ofString (numberToString t))
          ∧ getField a "id" ≠ getField b "id") := by
  refine ⟨⟨_, _, deleteContact_eq E setOk id cs loading slot, rfl, ?_⟩,
    ⟨_, _, toggleFavorite_eq E setOk id cs loading slot, rfl, ?_⟩, ?_, ?_, ?_⟩
  · exact hids.sublist ((List.filter_sublist cs).map idOf)
  · have e : ids (cs.map (toggleProps id)) = ids cs := by
      simp only [ids, List.map_map]
      apply List.map_congr_left
      intro c hc
      exact idOf_toggleProps id c (hcs c hc)
    rw [e]
    exact hids
  · intro hid
    refine ⟨_, _, updateContact_eq E setOk id _ cs loading slot, rfl, ?_⟩
    have e : ids (cs.map (updateProps id (obj data))) = ids cs := by
      simp only [ids, List.map_map]
      apply List.map_congr_left
      intro c hc
      exact idOf_updateProps id data c hdata (hcs c hc) hid
    rw [e]
    exact hids
  · intro hnew
    refine ⟨_, _, cs ++ [setProp "favorite" (ofBool false)
        (setProp "createdAt" (ofString (E.toISOString now2))
          (setProp "id" (ofString (numberToString now)) (spread [] (obj data))))],
      addContact_eq E now now2 setOk _ _ loading slot, ?_, ?_⟩
    · simp [records, newContact_eq]
    · have e : idOf (setProp "favorite" (ofBool false)
          (setProp "createdAt" (ofString (E.toISOString now2))
            (setProp "id" (ofString (numberToString now)) (spread [] (obj data)))))
          = ofString (numberToString now) := by
        simp only [idOf]
        rw [lookup_setProp_ne _ _ _ _ (by decide), lookup_setProp_ne _ _ _ _ (by decide),
          lookup_setProp_same]
        rfl
      simp only [ids, List.map_append, List.map_cons, List.map_nil, e]
      rw [List.nodup_append]
      refine ⟨hids, List.nodup_singleton _, ?_⟩
      intro a ha hb
      rw [List.mem_singleton] at hb
      subst hb
      exact hnew ha
  · intro t t2 ok2 data2 hne
    refine ⟨_, _, _, _, addContact_eq E now now2 setOk _ _ loading slot,
      addContact_eq E t t2 ok2 data2 _ loading _, getField_id_newContact E now now2 _,
      getField_id_newContact E t t2 _, ?_⟩
    rw [getField_id_newContact, getField_id_newContact]
    intro h
    have h1 : numberToString now = numberToString t := by
      simpa [ofString] using h
    exact hne (numberToString_injective now t h1)

theorem ids_stay_distinct_witness :
    (∀ c ∈ [[("id", ofString "1"), ("name", ofString "Ada")],
        [("id", ofString "2"), ("name", ofString "Alan")]], (keys c).Nodup)
    ∧ (keys [("name", ofString "Grace")]).Nodup
    ∧ (ids [[("id", ofString "1"), ("name", ofString "Ada")],
        [("id", ofString "2"), ("name", ofString "Alan")]]).Nodup
    ∧ ofString (numberToString 3) ∉ ids [[("id", ofString "1"), ("name", ofString "Ada")],
        [("id", ofString "2"), ("name", ofString "Alan")]]
    ∧ ∃ s1 c ds, addContact (refEnv demoSeed) 3 4 true (obj [("name", ofString "Grace")])
          ⟨records [[("id", ofString "1"), ("name", ofString "Ada")],
            [("id", ofString "2"), ("name", ofString "Alan")]], false, none⟩ = .ok (s1, c)
        ∧ s1.contacts = records ds ∧ (ids ds).Nodup :=
  ⟨by decide, by decide, by decide, by decide,
   (ids_stay_distinct (refEnv demoSeed) true (JsPrim.str "1") [("name", ofString "Grace")] 3 4
      [[("id", ofString "1"), ("name", ofString "Ada")],
       [("id", ofString "2"), ("name", ofString "Alan")]] false none
      (by decide) (by decide) (by decide)).2.2.2.1 (by decide)⟩

/-- Claim C1, counterexample. Two successive adds on the empty collection at the
same clock reading leave two entries carrying the same `id`; and an update
whose data names the `id` of another entry leaves two entries with that
`id`. -/
theorem ids_collide_on_equal_clock_readings :
    ∃ s1 s2 a b,
      addContact (refEnv demoSeed) 1700000000000 1700000000000 true
          (obj [("name", ofString "A")]) ⟨arr [], false, none⟩ = .ok (s1, a)
      ∧ addContact (refEnv demoSeed) 1700000000000 1700000000000 true
          (obj [("name", ofString "B")]) s1 = .ok (s2, b)
      ∧ s2.contacts = arr [a, b]
      ∧ getField a "id" = .ok (ofString "1700000000000")
      ∧ getField b "id" = .ok (ofString "1700000000000")
      ∧ a ≠ b
      ∧ updateContact (refEnv demoSeed) true (JsPrim.str "1") (obj [("id", ofString "2")])
          ⟨records [[("id", ofString "1"), ("name", ofString "Ada")],
            [("id", ofString "2"), ("name", ofString "Alan")]], false, none⟩
        = .ok ⟨records [[("id", ofString "2"), ("name", ofString "Ada")],
            [("id", ofString "2"), ("name", ofString "Alan")]], false,
            some "[\x7b\"id\":\"2\",\"name\":\"Ada\"\x7d,\x7b\"id\":\"2\",\"name\":\"Alan\"\x7d]"⟩ :=
  ⟨_, _, _, _, rfl, rfl, by decide, by decide, by decide, by decide, by decide⟩

/-! ## No operation raises on a collection -/

theorem isCollection_arr (xs : List JsVal) :
    isCollection (arr xs) = true ↔ ∀ x ∈ xs, x ≠ nul ∧ x ≠ undef := by
  simp [isCollection, List.all_eq_true]

theorem isCollection_iff (v : JsVal) :
    isCollection v = true ↔ ∃ xs, v = arr xs ∧ ∀ x ∈ xs, x ≠ nul ∧ x ≠ undef := by
  cases v with
  | prim p => simp [isCollection]
  | arr xs => simp [isCollection_arr]
  | obj fs => simp [isCollection]

theorem getField_ok (x : JsVal) (k : String) (h : x ≠ nul ∧ x ≠ undef) :
    ∃ v, getField x k = .ok v := by
  cases x with
  | prim p =>
    cases p with
    | undefined => exact absurd rfl h.2
    | null => exact absurd rfl h.1
    | bool b => exact ⟨_, rfl⟩
    | num n => exact ⟨_, rfl⟩
    | str s => exact ⟨_, rfl⟩
  | arr xs => exact ⟨_, rfl⟩
  | obj fs => exact ⟨_, rfl⟩

theorem updateEntry_ok (id : JsPrim) (data x : JsVal) (h : x ≠ nul ∧ x ≠ undef) :
    ∃ y, updateEntry id data x = .ok y ∧ y ≠ nul ∧ y ≠ undef := by
  obtain ⟨v, hv⟩ := getField_ok x "id" h
  simp only [updateEntry, hv]
  by_cases hm : strictEq v id = true
  · simp only [hm, if_true]
    exact ⟨_, rfl, by simp [nul], by simp [undef]⟩
  · simp only [hm]
    exact ⟨_, rfl, h⟩

theorem toggleEntry_ok (id : JsPrim) (x : JsVal) (h : x ≠ nul ∧ x ≠ undef) :
    ∃ y, toggleEntry id x = .ok y ∧ y ≠ nul ∧ y ≠ undef := by
  obtain ⟨v, hv⟩ := getField_ok x "id" h
  obtain ⟨w, hw⟩ := getField_ok x "favorite" h
  simp only [toggleEntry, hv, hw]
  by_cases hm : strictEq v id = true
  · simp only [hm, if_true]
    exact ⟨_, rfl, by simp [nul], by simp [undef]⟩
  · simp only [hm]
    exact ⟨_, rfl, h⟩

theorem keepEntry_ok (id : JsPrim) (x : JsVal) (h : x ≠ nul ∧ x ≠ undef) :
    ∃ b, keepEntry id x = .ok b := by
  obtain ⟨v, hv⟩ := getField_ok x "id" h
  simp only [keepEntry, hv]
  exact ⟨_, rfl⟩

theorem mapE_ok (f : JsVal → Except JsError JsVal) (xs : List JsVal)
    (hf : ∀ x, x ≠ nul ∧ x ≠ undef → ∃ y, f x = .ok y ∧ y ≠ nul ∧ y ≠ undef)
    (hxs : ∀ x ∈ xs, x ≠ nul ∧ x ≠ undef) :
    ∃ ys, mapE f xs = .ok ys ∧ ∀ y ∈ ys, y ≠ nul ∧ y ≠ undef := by
  induction xs with
  | nil => exact ⟨[], rfl, by simp⟩
  | cons x xs ih =>
    obtain ⟨y, hy, hy2⟩ := hf x (hxs x (List.mem_cons_self _ _))
    obtain ⟨ys, hys, hys2⟩ := ih (fun z hz => hxs z (List.mem_cons_of_mem _ hz))
    refine ⟨y :: ys, by simp [mapE, hy, hys], ?_⟩
    intro z hz
    rcases List.mem_cons.mp hz with hz | hz
    · rw [hz]
      exact hy2
    · exact hys2 z hz

theorem filterE_ok (p : JsVal → Except JsError Bool) (xs : List JsVal)
    (hp : ∀ x, x ≠ nul ∧ x ≠ undef → ∃ b, p x = .ok b)
    (hxs : ∀ x ∈ xs, x ≠ nul ∧ x ≠ undef) :
    ∃ ys, filterE p xs = .ok ys ∧ ∀ y ∈ ys, y ≠ nul ∧ y ≠ undef := by
  induction xs with
  | nil => exact ⟨[], rfl, by simp⟩
  | cons x xs ih =>
    obtain ⟨b, hb⟩ := hp x (hxs x (List.mem_cons_self _ _))
    obtain ⟨ys, hys, hys2⟩ := ih (fun z hz => hxs z (List.mem_cons_of_mem _ hz))
    refine ⟨if b then x :: ys else ys, by simp [filterE, hb, hys], ?_⟩
    intro z hz
    cases b with
    | false => exact hys2 z hz
    | true =>
      rcases List.mem_cons.mp hz with hz | hz
      · rw [hz]
        exact hxs x (List.mem_cons_self _ _)
      · exact hys2 z hz

theorem saveContacts_ok (E : Env) (setOk : Bool) (ys : List JsVal) (s : Store) :
    ∃ s1, saveContacts E setOk ys s = .ok s1 ∧ s1.contacts = s.contacts := by
  cases setOk
  · exact ⟨s, rfl, rfl⟩
  · exact ⟨_, rfl, rfl⟩

/-- Claim C10, amended. `loadContacts` (initialize, refresh) resolves for every
behaviour of the storage provider and every stored text.  When the in-memory
collection is an array without `null` or `undefined` entries, `addContact`,
`updateContact`, `deleteContact` and `toggleFavorite` resolve, with any
arguments and whether the write succeeds or fails, and leave it such an array.
`loadContacts` leaves it such an array when the seed list is one and the stored
text, if it parses, parses to one. -/
theorem operations_resolve (E : Env) (getOk setOk : Bool) (now now2 : Nat) (id : JsPrim)
    (data : JsVal) (s : Store) :
    (∃ s1, loadContacts E getOk setOk s = .ok s1 ∧ s1.loading = false)
    ∧ (isCollection s.contacts = true →
        (∃ s1 c, addContact E now now2 setOk data s = .ok (s1, c)
          ∧ isCollection s1.contacts = true)
        ∧ (∃ s1, updateContact E setOk id data s = .ok s1 ∧ isCollection s1.contacts = true)
        ∧ (∃ s1, deleteContact E setOk id s = .ok s1 ∧ isCollection s1.contacts = true)
        ∧ (∃ s1, toggleFavorite E setOk id s = .ok s1 ∧ isCollection s1.contacts = true))
    ∧ (isCollection (arr E.sampleContacts) = true →
        (∀ stored v, s.slot = some stored → E.parse stored = .ok v → isCollection v = true) →
        ∃ s1, loadContacts E getOk setOk s = .ok s1 ∧ isCollection s1.contacts = true) := by
  refine ⟨⟨_, rfl, rfl⟩, ?_, ?_⟩
  · intro hc
    obtain ⟨xs, hxs, hall⟩ := (isCollection_iff s.contacts).mp hc
    refine ⟨?_, ?_, ?_, ?_⟩
    · obtain ⟨s1, h1, h2⟩ := saveContacts_ok E setOk (xs ++ [newContact E now now2 data])
        { s with contacts := arr (xs ++ [newContact E now now2 data]) }
      refine ⟨s1, newContact E now now2 data, ?_, ?_⟩
      · simp only [addContact, hxs, iterate, h1]
      · rw [h2, isCollection_arr]
        intro x hx
        rcases List.mem_append.mp hx with hx | hx
        · exact hall x hx
        · rw [List.mem_singleton] at hx
          rw [hx]
          exact ⟨by simp [newContact, nul], by simp [newContact, undef]⟩
    · obtain ⟨ys, hys, hys2⟩ := mapE_ok (updateEntry id data) xs
        (updateEntry_ok id data) hall
      obtain ⟨s1, h1, h2⟩ := saveContacts_ok E setOk ys { s with contacts := arr ys }
      refine ⟨s1, ?_, ?_⟩
      · simp only [updateContact, hxs, arrayMap, hys, h1]
      · rw [h2, isCollection_arr]
        exact hys2
    · obtain ⟨ys, hys, hys2⟩ := filterE_ok (keepEntry id) xs (keepEntry_ok id) hall
      obtain ⟨s1, h1, h2⟩ := saveContacts_ok E setOk ys { s with contacts := arr ys }
      refine ⟨s1, ?_, ?_⟩
      · simp only [deleteContact, hxs, arrayFilter, hys, h1]
      · rw [h2, isCollection_arr]
        exact hys2
    · obtain ⟨ys, hys, hys2⟩ := mapE_ok (toggleEntry id) xs (toggleEntry_ok id) hall
      obtain ⟨s1, h1, h2⟩ := saveContacts_ok E setOk ys { s with contacts := arr ys }
      refine ⟨s1, ?_, ?_⟩
      · simp only [toggleFavorite, hxs, arrayMap, hys, h1]
      · rw [h2, isCollection_arr]
        exact hys2
  · intro hseed hparse
    refine ⟨_, rfl, ?_⟩
    cases getOk with
    | false => simpa [loadTry, getItem] using hseed
    | true =>
      cases hs : s.slot with
      | none =>
        cases setOk <;> simpa [loadTry, getItem, setItem, hs, storedTruthy] using hseed
      | some stored =>
        by_cases hne : stored = ""
        · cases setOk <;> simpa [loadTry, getItem, setItem, hs, storedTruthy, hne] using hseed
        · cases hp : E.parse stored with
          | error e => simpa [loadTry, getItem, hs, storedTruthy, hne, hp] using hseed
          | ok v =>
            have := hparse stored v hs hp
            simpa [loadTry, getItem, hs, storedTruthy, hne, hp] using this

theorem operations_resolve_witness :
    isCollection (arr demoSeed) = true
    ∧ (∃ s1, updateContact (refEnv demoSeed) false (JsPrim.str "1")
          (obj [("name", ofString "Z")]) ⟨arr demoSeed, false, none⟩ = .ok s1
        ∧ isCollection s1.contacts = true) :=
  ⟨by decide,
   ((operations_resolve (refEnv demoSeed) true false 1 1 (JsPrim.str "1")
      (obj [("name", ofString "Z")]) ⟨arr demoSeed, false, none⟩).2.1 (by decide)).2.1⟩

/-- Claim C10, counterexample. With the slot holding the text `null`,
`loadContacts` resolves and adopts `null` as the collection, after which every
mutating operation raises a TypeError; with the slot holding `[null]` the
adopted array makes `updateContact`, `deleteContact` and `toggleFavorite`
raise. -/
theorem operations_raise_after_hydration :
    jsonParse "null" = .ok nul
    ∧ loadContacts (refEnv demoSeed) true true (Store.initial (some "null"))
      = .ok ⟨nul, false, some "null"⟩
    ∧ addContact (refEnv demoSeed) 1 1 true (obj [("name", ofString "A")])
        ⟨nul, false, some "null"⟩ = .error JsError.typeError
    ∧ updateContact (refEnv demoSeed) true (JsPrim.str "1") (obj [("name", ofString "Z")])
        ⟨nul, false, some "null"⟩ = .error JsError.typeError
    ∧ deleteContact (refEnv demoSeed) true (JsPrim.str "1") ⟨nul, false, some "null"⟩
      = .error JsError.typeError
    ∧ toggleFavorite (refEnv demoSeed) true (JsPrim.str "1") ⟨nul, false, some "null"⟩
      = .error JsError.typeError
    ∧ loadContacts (refEnv demoSeed) true true (Store.initial (some "[null]"))
      = .ok ⟨arr [nul], false, some "[null]"⟩
    ∧ updateContact (refEnv demoSeed) true (JsPrim.str "1") (obj [("name", ofString "Z")])
        ⟨arr [nul], false, some "[null]"⟩ = .error JsError.typeError
    ∧ deleteContact (refEnv demoSeed) true (JsPrim.str "1") ⟨arr [nul], false, some "[null]"⟩
      = .error JsError.typeError
    ∧ toggleFavorite (refEnv demoSeed) true (JsPrim.str "1") ⟨arr [nul], false, some "[null]"⟩
      = .error JsError.typeError := by
  decide

/-! ## Persist, then hydrate -/

theorem jsonStringify_ne_empty (xs : List JsVal) : jsonStringify xs ≠ "" := by
  intro h
  have := congrArg String.data h
  simp [jsonStringify] at this

theorem mutation_apply_eq (E : Env) (m : Mutation) (cs : List Props)
    (loading : Bool) (slot : Option String) :
    ∃ ys, ∀ setOk, m.apply E setOk ⟨records cs, loading, slot⟩
      = .ok ⟨arr ys, loading, if setOk then some (E.stringify ys) else slot⟩ := by
  cases m with
  | add now now2 data =>
    exact ⟨cs.map obj ++ [newContact E now now2 data], fun setOk => by
      simp only [Mutation.apply, records, addContact_eq]⟩
  | update id data =>
    exact ⟨(cs.map (updateProps id data)).map obj, fun setOk => by
      simp only [Mutation.apply, updateContact_eq]; rfl⟩
  | remove id =>
    exact ⟨(cs.filter fun c => !strictEq (idOf c) id).map obj, fun setOk => by
      simp only [Mutation.apply, deleteContact_eq]; rfl⟩
  | toggle id =>
    exact ⟨(cs.map (toggleProps id)).map obj, fun setOk => by
      simp only [Mutation.apply, toggleFavorite_eq]; rfl⟩

/-! ## Persist, then hydrate -/

/-- Claim C8, amended. On every platform, after any mutating operation on a
collection of records whose write succeeds, the slot holds the serialization
of the whole new in-memory collection, and a following `loadContacts` whose
read succeeds adopts a collection equal to it whenever `JSON.parse` reads the
collection back from the text `JSON.stringify` wrote for it.  On the reference
platform, removing the only contact leaves the empty collection, which is
written as `[]` and adopted as empty, not replaced by the seed list. -/
theorem persist_then_hydrate (E : Env) (seed : List JsVal) (m : Mutation) (cs : List Props)
    (loading : Bool) (slot : Option String) (setOk2 : Bool) :
    (∃ s1 ys, m.apply E true ⟨records cs, loading, slot⟩ = .ok s1
      ∧ s1.contacts = arr ys
      ∧ s1.slot = some (E.stringify ys))
    ∧ (∀ s1 ys, m.apply E true ⟨records cs, loading, slot⟩ = .ok s1 →
        s1.contacts = arr ys → E.stringify ys ≠ "" →
        E.parse (E.stringify ys) = .ok (arr ys) →
        loadContacts E true setOk2 s1 = .ok ⟨arr ys, false, some (E.stringify ys)⟩)
    ∧ (∀ (c : Props) (id : JsPrim), strictEq (idOf c) id = true →
        ∃ s1, deleteContact (refEnv seed) true id ⟨records [c], loading, slot⟩ = .ok s1
          ∧ s1.contacts = arr []
          ∧ s1.slot = some "[]"
          ∧ loadContacts (refEnv seed) true setOk2 s1 = .ok ⟨arr [], false, some "[]"⟩) := by
  obtain ⟨ys0, h⟩ := mutation_apply_eq E m cs loading slot
  refine ⟨⟨_, ys0, h true, rfl, rfl⟩, ?_, ?_⟩
  · intro s1 ys h1 h2 hne hp
    rw [h true] at h1
    have e1 := Except.ok.inj h1
    subst e1
    have e2 : ys0 = ys := JsVal.arr.inj h2
    subst e2
    exact loadContacts_of_parse_success E setOk2 _ (E.stringify ys0) (arr ys0) rfl hne hp
  · intro c id hm
    have e : ([c].filter fun c => !strictEq (idOf c) id) = [] := by
      simp [List.filter, hm]
    have hp : (refEnv seed).parse "[]" = .ok (arr []) := by
      show jsonParse "[]" = .ok (arr [])
      decide
    refine ⟨_, deleteContact_eq (refEnv seed) true id [c] loading slot, ?_, ?_, ?_⟩
    · simp [e, records]
    · simp [e, refEnv, jsonStringify, serElements, commaSep]
    · rw [e]
      exact loadContacts_of_parse_success (refEnv seed) setOk2 _ "[]" (arr []) rfl
        (by decide) hp

set_option maxRecDepth 100000 in
theorem persist_then_hydrate_witness :
    loadContacts (refEnv demoSeed) true true
        ⟨arr [obj [("id", ofString "1"), ("rate", ofDecimal false 45 (-1))],
          obj [("name", ofString "G\"H"), ("n", ofInt (-3)), ("big", ofInt 9007199254740993),
            ("tags", arr [nul, ofDecimal false 1 21]), ("id", ofString "1700000000000"),
            ("createdAt", ofString "2023-11-14T22:13:20.001Z"), ("favorite", ofBool false)]],
          false,
          some (jsonStringify [obj [("id", ofString "1"), ("rate", ofDecimal false 45 (-1))],
            obj [("name", ofString "G\"H"), ("n", ofInt (-3)), ("big", ofInt 9007199254740993),
              ("tags", arr [nul, ofDecimal false 1 21]), ("id", ofString "1700000000000"),
              ("createdAt", ofString "2023-11-14T22:13:20.001Z"),
              ("favorite", ofBool false)]])⟩
      = .ok ⟨arr [obj [("id", ofString "1"), ("rate", ofDecimal false 45 (-1))],
          obj [("name", ofString "G\"H"), ("n", ofInt (-3)), ("big", ofInt 9007199254740993),
            ("tags", arr [nul, ofDecimal false 1 21]), ("id", ofString "1700000000000"),
            ("createdAt", ofString "2023-11-14T22:13:20.001Z"), ("favorite", ofBool false)]],
          false,
          some (jsonStringify [obj [("id", ofString "1"), ("rate", ofDecimal false 45 (-1))],
            obj [("name", ofString "G\"H"), ("n", ofInt (-3)), ("big", ofInt 9007199254740993),
              ("tags", arr [nul, ofDecimal false 1 21]), ("id", ofString "1700000000000"),
              ("createdAt", ofString "2023-11-14T22:13:20.001Z"),
              ("favorite", ofBool false)]])⟩ :=
  (persist_then_hydrate (refEnv demoSeed) demoSeed
    (Mutation.add 1700000000000 1700000000001
      (obj [("name", ofString "G\"H"), ("n", ofInt (-3)), ("big", ofInt 9007199254740993),
        ("tags", arr [nul, ofDecimal false 1 21])]))
    [[("id", ofString "1"), ("rate", ofDecimal false 45 (-1))]] false none true).2.1 _ _
    (by decide) rfl (by decide) (by decide)

/-- Claim C8, counterexample. A contact added with a `NaN` leaf is written with
`null` in its place, and the collection adopted by the following
`loadContacts` differs from the in-memory collection that was persisted. -/
theorem hydrate_differs_on_nan :
    ∃ s1 s2 a,
      addContact (refEnv demoSeed) 1 1 true
          (obj [("name", ofString "A"), ("age", prim (JsPrim.num JsNum.nan))])
          ⟨arr [], false, none⟩ = .ok (s1, a)
      ∧ s1.contacts = arr [obj [("name", ofString "A"), ("age", prim (JsPrim.num JsNum.nan)),
          ("id", ofString "1"), ("createdAt", ofString "1970-01-01T00:00:00.001Z"),
          ("favorite", ofBool false)]]
      ∧ loadContacts (refEnv demoSeed) true true s1 = .ok s2
      ∧ s2.contacts = arr [obj [("name", ofString "A"), ("age", nul),
          ("id", ofString "1"), ("createdAt", ofString "1970-01-01T00:00:00.001Z"),
          ("favorite", ofBool false)]]
      ∧ s2.contacts ≠ s1.contacts :=
  ⟨_, _, _, rfl, by decide, rfl, by decide, by decide⟩

end ContactManager
